import Mathlib

/-!
OpenBSD call sanitizer (`sys/openbsd/init.go`)

A shallow embedding of the device-number codec (`devmajor`, `devminor`,
`isKcovFd`) and of `arch.SanitizeCall`, followed by the properties proved
about them.

Conventions of the embedding:

* `uint64` values are natural numbers below `2 ^ 64`.  Shifts to the right,
  `&` and `|` never leave that range; the only operator that needs the width
  is the complement `^x`, embedded as `not64`.
* `c.Args[i].(*prog.ConstArg)` panics when the index is out of range or the
  argument is of another variant.  `SanitizeCall` mutates the call in place, so
  the embedding returns an `Outcome` that records the call as it stands when
  the method returns, or as it stands when it panics.
* Arguments of a call are distinct objects (a program is a tree), so an
  in-place update of one argument is an update of one position of the list.
-/

namespace OpenBSD

/-! ## Data model -/

/-- Modelled from the spec: the `prog.Arg` interface of the `prog` package.  The only
variant the sanitizer touches is the constant-valued argument `*prog.ConstArg`
with its `Val` field; every other variant is kept abstract (`other`, with a
payload that stands for its contents). -/
inductive Arg where
  | const (Val : Nat)
  | other (payload : Nat)
  deriving DecidableEq, Repr

/-- Modelled from the spec: the `prog.Syscall` descriptor reached through `c.Meta`; the
sanitizer reads only its `CallName`. -/
structure Syscall where
  CallName : String
  deriving DecidableEq, Repr

/-- Modelled from the spec: the `prog.Call` of the `prog` package: a syscall descriptor
and an ordered, index-addressable sequence of arguments. -/
structure Call where
  Meta : Syscall
  Args : List Arg
  deriving DecidableEq, Repr

/-- How a run of `SanitizeCall` ends: it returns, or it panics (index out of
range, failed type assertion).  Either way the call carried is the call as the
in-place updates have left it. -/
inductive Outcome where
  | returned (c : Call)
  | panicked (c : Call)
  deriving DecidableEq, Repr

/-- The receiver of `SanitizeCall`: the generic unix sanitizer it delegates to
(its `SanitizeCall` method, taken as a parameter) and the two resolved
constants. -/
structure arch where
  unix : Call → Outcome
  S_IFMT : Nat
  S_IFCHR : Nat

/-! ## Constants -/

def mknodMode : Nat := 0
def mknodDev : Nat := 1
def devFdMajor : Nat := 22
def devNullDevT : Nat := 0x0202
def kcovFdMinorMin : Nat := 232
def kcovFdMinorMax : Nat := 248

/-- The four flags cleared by the chflags rule: `UF_IMMUTABLE`, `UF_APPEND`,
`SF_IMMUTABLE`, `SF_APPEND`. -/
def badflags : List Nat := [0x00000002, 0x00000004, 0x00020000, 0x00040000]

/-! ## Device-number codec -/

/-- Go: `(dev >> 8) & 0xff`. -/
def devmajor (dev : Nat) : Nat :=
  (dev >>> 8) &&& 0xff

/-- Go: `(dev & 0xff) | ((dev & 0xffff0000) >> 8)`. -/
def devminor (dev : Nat) : Nat :=
  (dev &&& 0xff) ||| ((dev &&& 0xffff0000) >>> 8)

/-- Go: `major == devFdMajor && minor >= kcovFdMinorMin && minor < kcovFdMinorMax`. -/
def isKcovFd (dev : Nat) : Bool :=
  let major := devmajor dev
  let minor := devminor dev
  major == devFdMajor && decide (minor ≥ kcovFdMinorMin) && decide (minor < kcovFdMinorMax)

/-! ## The sanitizer -/

/-- The `uint64` complement `^x`: exclusive or with the all-ones word. -/
def not64 (x : Nat) : Nat :=
  0xFFFFFFFFFFFFFFFF ^^^ (x % 2 ^ 64)

/-- The loop `for _, f := range badflags { flags.Val &= ^f }`. -/
def clearBadflags (val : Nat) : Nat :=
  badflags.foldl (fun v f => v &&& not64 f) val

/-- Body shared by `chflagsat`, `chflags` and `fchflags`. -/
def sanitizeChflags (argStart : Nat) (c : Call) : Outcome :=
  match c.Args[argStart]? with
  | some (Arg.const val) =>
      Outcome.returned { c with Args := c.Args.set argStart (Arg.const (clearBadflags val)) }
  | _ => Outcome.panicked c

/-- The update of `mode.Val`: when the file-type bits are all set, clear them
(`&^=`) and set the character-device tag (`|=`). -/
def fixMode (a : arch) (mode : Nat) : Nat :=
  if mode &&& a.S_IFMT = a.S_IFMT then (mode &&& not64 a.S_IFMT) ||| a.S_IFCHR else mode

/-- The two successive updates of `dev.Val`; the second test reads the value
the first one may have written. -/
def fixDev (dev : Nat) : Nat :=
  let dev1 := if isKcovFd dev then devNullDevT else dev
  if devmajor dev1 = 4 ∧ devminor dev1 = 2 then devNullDevT else dev1

/-- Body shared by `mknodat` and `mknod`.  The mode is rewritten before the
device argument is looked up, so a panic on the device argument carries the
call with the mode already rewritten. -/
def sanitizeMknod (a : arch) (argStart : Nat) (c : Call) : Outcome :=
  match c.Args[argStart + mknodMode]? with
  | some (Arg.const mode) =>
      let c1 : Call := { c with Args := c.Args.set (argStart + mknodMode) (Arg.const (fixMode a mode)) }
      match c1.Args[argStart + mknodDev]? with
      | some (Arg.const dev) =>
          Outcome.returned { c1 with Args := c1.Args.set (argStart + mknodDev) (Arg.const (fixDev dev)) }
      | _ => Outcome.panicked c1
  | _ => Outcome.panicked c

/-- The method `(arch *arch) SanitizeCall(c *prog.Call)`: `argStart` starts at
`1`, the `at` variants set it to `2` and fall through to the base variant. -/
def SanitizeCall (a : arch) (c : Call) : Outcome :=
  let argStart := 1
  if c.Meta.CallName = "chflagsat" then
    let argStart := 2
    sanitizeChflags argStart c
  else if c.Meta.CallName = "chflags" ∨ c.Meta.CallName = "fchflags" then
    sanitizeChflags argStart c
  else if c.Meta.CallName = "mknodat" then
    let argStart := 2
    sanitizeMknod a argStart c
  else if c.Meta.CallName = "mknod" then
    sanitizeMknod a argStart c
  else
    a.unix c

/-- The positions at which the rule for a call name indexes `c.Args` and
asserts a `*prog.ConstArg`: `argStart` for the chflags family, `argStart + mknodMode`
and `argStart + mknodDev` for the mknod family, none for any other name. -/
def targetedPositions (name : String) : List Nat :=
  if name = "chflagsat" then [2]
  else if name = "chflags" ∨ name = "fchflags" then [1]
  else if name = "mknodat" then [2 + mknodMode, 2 + mknodDev]
  else if name = "mknod" then [1 + mknodMode, 1 + mknodDev]
  else []

/-- A generic unix sanitizer that leaves every call as it is. -/
def unixId : Call → Outcome := Outcome.returned

/-- Whether an argument is of the `*prog.ConstArg` variant. -/
def Arg.isConst : Arg → Bool
  | Arg.const _ => true
  | Arg.other _ => false

/-! ## Target initialization -/

/-- Modelled from the spec: the part of `prog.Target` that `InitTarget` uses: the
constant lookup `GetConst` (which fails on a name the target description does
not know) and the two hooks `InitTarget` assigns.  The type `M` of the mmap
helper is left abstract. -/
structure Target (M : Type) where
  GetConst : String → Option Nat
  MakeMmap : M
  SanitizeCall : Call → Outcome

/-- The function `InitTarget(target *prog.Target)`.  `targets.MakeUnixSanitizer`
and `targets.MakePosixMmap` belong to another package and are parameters.  A
failed `GetConst` is fatal (`none`); otherwise the target comes back with both
hooks assigned. -/
def InitTarget {M : Type} (MakeUnixSanitizer : Target M → Call → Outcome)
    (MakePosixMmap : Target M → M) (target : Target M) : Option (Target M) :=
  let unix := MakeUnixSanitizer target
  match target.GetConst "S_IFMT" with
  | none => none
  | some ifmt =>
    match target.GetConst "S_IFCHR" with
    | none => none
    | some ifchr =>
      let a : arch := { unix := unix, S_IFMT := ifmt, S_IFCHR := ifchr }
      some { target with MakeMmap := MakePosixMmap target, SanitizeCall := SanitizeCall a }

/-- The values of `S_IFMT` (`0170000`) and `S_IFCHR` (`0020000`) in OpenBSD's
`sys/stat.h`, as a constant table that knows nothing else. -/
def openbsdConsts (name : String) : Option Nat :=
  if name = "S_IFMT" then some 0xF000 else if name = "S_IFCHR" then some 0x2000 else none

/-! ## Bit-level lemmas -/

theorem testBit_255 (i : Nat) : Nat.testBit 255 i = decide (i < 8) := by
  have h : (255 : Nat) = 2 ^ 8 - 1 := by norm_num
  rw [h, Nat.testBit_two_pow_sub_one]

theorem testBit_ffff0000 (i : Nat) :
    Nat.testBit 0xffff0000 i = (decide (16 ≤ i) && decide (i < 32)) := by
  have h : (0xffff0000 : Nat) = (2 ^ 16 - 1) <<< 16 := by decide
  rw [h, Nat.testBit_shiftLeft, Nat.testBit_two_pow_sub_one]
  by_cases h1 : 16 ≤ i <;> by_cases h2 : i < 32 <;> simp [h1, h2] <;> omega

theorem testBit_devmajor (dev i : Nat) :
    (devmajor dev).testBit i = (decide (i < 8) && dev.testBit (i + 8)) := by
  unfold devmajor
  rw [Nat.testBit_and, Nat.testBit_shiftRight, testBit_255, Nat.add_comm 8 i, Bool.and_comm]

theorem testBit_devminor (dev i : Nat) :
    (devminor dev).testBit i
      = if i < 8 then dev.testBit i else (decide (i < 24) && dev.testBit (i + 8)) := by
  unfold devminor
  rw [Nat.testBit_or, Nat.testBit_and, Nat.testBit_shiftRight, Nat.testBit_and, testBit_255,
    testBit_ffff0000, Nat.add_comm 8 i]
  by_cases h1 : i < 8
  · have h2 : ¬ 16 ≤ i + 8 := by omega
    simp [h1, h2]
  · have h2 : 16 ≤ i + 8 := by omega
    by_cases h3 : i < 24
    · have h4 : i + 8 < 32 := by omega
      simp [h1, h2, h3, h4]
    · have h4 : ¬ i + 8 < 32 := by omega
      simp [h1, h2, h3, h4]

theorem devmajor_lt (dev : Nat) : devmajor dev < 256 := by
  unfold devmajor
  exact Nat.lt_of_le_of_lt Nat.and_le_right (by decide)

theorem devminor_lt (dev : Nat) : devminor dev < 2 ^ 24 := by
  apply Nat.lt_pow_two_of_testBit
  intro i hi
  rw [testBit_devminor]
  have h1 : ¬ i < 8 := by omega
  have h2 : ¬ i < 24 := by omega
  simp [h1, h2]

theorem devmajor_eq_div_mod (dev : Nat) : devmajor dev = dev / 256 % 256 := by
  unfold devmajor
  have h : (0xff : Nat) = 2 ^ 8 - 1 := by norm_num
  rw [h, Nat.and_pow_two_sub_one_eq_mod, Nat.shiftRight_eq_div_pow]

theorem devminor_eq_div_mod (dev : Nat) :
    devminor dev = dev % 256 + dev / 65536 % 65536 * 256 := by
  apply Nat.eq_of_testBit_eq
  intro i
  have h : dev % 256 + dev / 65536 % 65536 * 256 = 2 ^ 8 * (dev / 2 ^ 16 % 2 ^ 16) + dev % 2 ^ 8 := by
    norm_num
    omega
  rw [testBit_devminor, h, Nat.testBit_mul_pow_two_add _ (Nat.mod_lt _ (by norm_num)),
    Nat.testBit_mod_two_pow, Nat.testBit_mod_two_pow, ← Nat.shiftRight_eq_div_pow,
    Nat.testBit_shiftRight]
  by_cases h1 : i < 8
  · simp [h1]
  · have h2 : 16 + (i - 8) = i + 8 := by omega
    have h3 : (i - 8 < 16) = (i < 24) := by
      apply propext
      omega
    simp [h1, h2, h3]

theorem testBit_not64 (x i : Nat) :
    (not64 x).testBit i = (decide (i < 64) && !x.testBit i) := by
  have h : (0xFFFFFFFFFFFFFFFF : Nat) = 2 ^ 64 - 1 := by norm_num
  unfold not64
  rw [h, Nat.testBit_xor, Nat.testBit_two_pow_sub_one, Nat.testBit_mod_two_pow]
  by_cases h1 : i < 64 <;> simp [h1]

theorem clearBadflags_eq (v : Nat) :
    clearBadflags v = v &&& not64 (0x2 ||| 0x4 ||| 0x20000 ||| 0x40000) := by
  show (((v &&& not64 0x2) &&& not64 0x4) &&& not64 0x20000) &&& not64 0x40000 = _
  rw [Nat.land_assoc, Nat.land_assoc, Nat.land_assoc]
  congr 1

theorem clearBadflags_mask (v : Nat) :
    v &&& not64 (0x2 ||| 0x4 ||| 0x20000 ||| 0x40000) = v &&& 0xFFFFFFFFFFF9FFF9 := by
  congr 1

theorem testBit_clearMask (v i : Nat) :
    (v &&& not64 (0x2 ||| 0x4 ||| 0x20000 ||| 0x40000)).testBit i
      = (v.testBit i && decide (i < 64) && !decide (i = 1 ∨ i = 2 ∨ i = 17 ∨ i = 18)) := by
  have h : (0x2 ||| 0x4 ||| 0x20000 ||| 0x40000 : Nat) = 2 ^ 1 ||| 2 ^ 2 ||| 2 ^ 17 ||| 2 ^ 18 := by
    decide
  rw [Nat.testBit_and, testBit_not64, h, Nat.testBit_or, Nat.testBit_or, Nat.testBit_or,
    Nat.testBit_two_pow, Nat.testBit_two_pow, Nat.testBit_two_pow, Nat.testBit_two_pow]
  by_cases h1 : i = 1 <;> by_cases h2 : i = 2 <;> by_cases h3 : i = 17 <;> by_cases h4 : i = 18 <;>
    simp [h1, h2, h3, h4, eq_comm]

theorem clearBadflags_idem (v : Nat) : clearBadflags (clearBadflags v) = clearBadflags v := by
  rw [clearBadflags_eq, clearBadflags_eq, Nat.land_assoc, Nat.and_self]

theorem fixMode_idem (a : arch) (m : Nat) : fixMode a (fixMode a m) = fixMode a m := by
  unfold fixMode
  by_cases h : m &&& a.S_IFMT = a.S_IFMT
  · rw [if_pos h]
    by_cases h2 : (m &&& not64 a.S_IFMT ||| a.S_IFCHR) &&& a.S_IFMT = a.S_IFMT
    · rw [if_pos h2]
      apply Nat.eq_of_testBit_eq
      intro i
      simp only [Nat.testBit_or, Nat.testBit_and]
      cases m.testBit i <;> cases (not64 a.S_IFMT).testBit i <;> cases a.S_IFCHR.testBit i <;> rfl
    · rw [if_neg h2]
  · rw [if_neg h, if_neg h]

theorem fixDev_eq (d : Nat) :
    fixDev d = if isKcovFd d = true ∨ (devmajor d = 4 ∧ devminor d = 2) then devNullDevT else d := by
  unfold fixDev
  by_cases h : isKcovFd d = true
  · have h2 : ¬ (devmajor devNullDevT = 4 ∧ devminor devNullDevT = 2) := by decide
    simp [h, h2]
  · simp [h]

theorem fixDev_idem (d : Nat) : fixDev (fixDev d) = fixDev d := by
  have h0 : fixDev devNullDevT = devNullDevT := by decide
  rw [fixDev_eq d]
  by_cases h : isKcovFd d = true ∨ (devmajor d = 4 ∧ devminor d = 2)
  · rw [if_pos h, h0]
  · rw [if_neg h, fixDev_eq, if_neg h]

/-! ## Dispatch and the two rule bodies -/

theorem SanitizeCall_chflagsat (a : arch) (c : Call) (h : c.Meta.CallName = "chflagsat") :
    SanitizeCall a c = sanitizeChflags 2 c := by
  simp [SanitizeCall, h]

theorem SanitizeCall_chflags (a : arch) (c : Call)
    (h : c.Meta.CallName = "chflags" ∨ c.Meta.CallName = "fchflags") :
    SanitizeCall a c = sanitizeChflags 1 c := by
  rcases h with h | h <;> simp [SanitizeCall, h]

theorem SanitizeCall_mknodat (a : arch) (c : Call) (h : c.Meta.CallName = "mknodat") :
    SanitizeCall a c = sanitizeMknod a 2 c := by
  simp [SanitizeCall, h]

theorem SanitizeCall_mknod (a : arch) (c : Call) (h : c.Meta.CallName = "mknod") :
    SanitizeCall a c = sanitizeMknod a 1 c := by
  simp [SanitizeCall, h]

theorem SanitizeCall_default (a : arch) (c : Call)
    (h1 : c.Meta.CallName ≠ "chflagsat") (h2 : c.Meta.CallName ≠ "chflags")
    (h3 : c.Meta.CallName ≠ "fchflags") (h4 : c.Meta.CallName ≠ "mknodat")
    (h5 : c.Meta.CallName ≠ "mknod") : SanitizeCall a c = a.unix c := by
  simp [SanitizeCall, h1, h2, h3, h4, h5]

theorem sanitizeChflags_const (i v : Nat) (c : Call) (h : c.Args[i]? = some (Arg.const v)) :
    sanitizeChflags i c
      = Outcome.returned { c with Args := c.Args.set i (Arg.const (clearBadflags v)) } := by
  simp [sanitizeChflags, h]

theorem sanitizeMknod_const (a : arch) (i m d : Nat) (c : Call)
    (hm : c.Args[i]? = some (Arg.const m)) (hd : c.Args[i + 1]? = some (Arg.const d)) :
    sanitizeMknod a i c
      = Outcome.returned { c with Args :=
          (c.Args.set i (Arg.const (fixMode a m))).set (i + 1) (Arg.const (fixDev d)) } := by
  have hne : i ≠ i + 1 := by omega
  simp [sanitizeMknod, mknodMode, mknodDev, hm, hd, List.getElem?_set_ne hne]

theorem getElem?_set_of_some {l : List Arg} {i : Nat} {x y : Arg} (h : l[i]? = some x) :
    (l.set i y)[i]? = some y := by
  obtain ⟨hlt, _⟩ := List.getElem?_eq_some.mp h
  exact List.getElem?_set_self hlt

theorem set_of_getElem? {l : List Arg} {i : Nat} {x : Arg} (h : l[i]? = some x) :
    l.set i x = l := by
  induction l generalizing i with
  | nil => rfl
  | cons y ys ih =>
    cases i with
    | zero =>
      simp only [List.getElem?_cons_zero, Option.some.injEq] at h
      rw [List.set_cons_zero, h]
    | succ n =>
      rw [List.getElem?_cons_succ] at h
      rw [List.set_cons_succ, ih h]

theorem sanitizeChflags_returned (i : Nat) (c r : Call)
    (h : sanitizeChflags i c = Outcome.returned r) :
    ∃ v, c.Args[i]? = some (Arg.const v)
      ∧ r = { c with Args := c.Args.set i (Arg.const (clearBadflags v)) } := by
  unfold sanitizeChflags at h
  split at h
  · next v hv =>
    injection h with h
    exact ⟨v, hv, h.symm⟩
  · cases h

theorem sanitizeMknod_returned (a : arch) (i : Nat) (c r : Call)
    (h : sanitizeMknod a i c = Outcome.returned r) :
    ∃ m d, c.Args[i]? = some (Arg.const m) ∧ c.Args[i + 1]? = some (Arg.const d)
      ∧ r = { c with Args :=
          (c.Args.set i (Arg.const (fixMode a m))).set (i + 1) (Arg.const (fixDev d)) } := by
  have hne : i ≠ i + 1 := by omega
  unfold sanitizeMknod at h
  simp only [mknodMode, mknodDev, Nat.add_zero] at h
  split at h
  · next m hm =>
    simp only [List.getElem?_set_ne hne] at h
    split at h
    · next d hd =>
      injection h with h
      exact ⟨m, d, hm, hd, h.symm⟩
    · cases h
  · cases h

theorem sanitizeChflags_panics (i : Nat) (c : Call)
    (h : ∀ v, c.Args[i]? ≠ some (Arg.const v)) : sanitizeChflags i c = Outcome.panicked c := by
  unfold sanitizeChflags
  split
  · next v hv => exact absurd hv (h v)
  · rfl

theorem sanitizeMknod_panics_mode (a : arch) (i : Nat) (c : Call)
    (h : ∀ v, c.Args[i]? ≠ some (Arg.const v)) : sanitizeMknod a i c = Outcome.panicked c := by
  unfold sanitizeMknod
  simp only [mknodMode, Nat.add_zero]

theorem sanitizeMknod_panics_dev (a : arch) (i m : Nat) (c : Call)
    (hm : c.Args[i]? = some (Arg.const m)) (h : ∀ v, c.Args[i + 1]? ≠ some (Arg.const v)) :
    sanitizeMknod a i c
      = Outcome.panicked { c with Args := c.Args.set i (Arg.const (fixMode a m)) } := by
  have hne : i ≠ i + 1 := by omega
  unfold sanitizeMknod
  simp only [mknodMode, mknodDev, Nat.add_zero, hm, List.getElem?_set_ne hne]

theorem sanitizeMknod_nonconst (a : arch) (i j : Nat) (c : Call) (x : Arg)
    (hj : j = i ∨ j = i + 1) (hx : c.Args[j]? = some x) (hnc : ∀ v, x ≠ Arg.const v) :
    sanitizeMknod a i c = Outcome.panicked c
    ∨ ∃ m, j = i + 1 ∧ c.Args[i]? = some (Arg.const m)
        ∧ sanitizeMknod a i c
          = Outcome.panicked { c with Args := c.Args.set i (Arg.const (fixMode a m)) } := by
  have hxv : ∀ v, c.Args[j]? ≠ some (Arg.const v) := by
    intro v hv
    rw [hx] at hv
    exact hnc v (Option.some.inj hv)
  rcases hj with rfl | rfl
  · exact Or.inl (sanitizeMknod_panics_mode a j c hxv)
  · by_cases hm : ∃ m, c.Args[i]? = some (Arg.const m)
    · obtain ⟨m, hm⟩ := hm
      exact Or.inr ⟨m, rfl, hm, sanitizeMknod_panics_dev a i m c hm hxv⟩
    · refine Or.inl (sanitizeMknod_panics_mode a i c ?_)
      intro v hv
      exact hm ⟨v, hv⟩

/-! ## The device-number codec -/

/-- C1: for every device value `dev` (in particular every 64-bit one),
`devmajor dev` is `(dev >> 8) & 0xFF` and `devminor dev` is
`(dev & 0xFF) | ((dev & 0xFFFF0000) >> 8)`, bit for bit: bit `i` of the major
is bit `i + 8` of `dev` for `i < 8` and clear above; bit `i` of the minor is
bit `i` of `dev` for `i < 8`, bit `i + 8` of `dev` for `8 ≤ i < 24`, and clear
above.  Both are total and their results fit in 64 bits. -/
theorem devmajor_devminor_bit_exact (dev : Nat) :
    devmajor dev = (dev >>> 8) &&& 0xFF
    ∧ devminor dev = (dev &&& 0xFF) ||| ((dev &&& 0xFFFF0000) >>> 8)
    ∧ (∀ i, (devmajor dev).testBit i = (decide (i < 8) && dev.testBit (i + 8)))
    ∧ (∀ i, (devminor dev).testBit i
        = if i < 8 then dev.testBit i else (decide (i < 24) && dev.testBit (i + 8)))
    ∧ devmajor dev = dev / 256 % 256
    ∧ devminor dev = dev % 256 + dev / 65536 % 65536 * 256
    ∧ devmajor dev < 2 ^ 64 ∧ devminor dev < 2 ^ 64 :=
  ⟨rfl, rfl, testBit_devmajor dev, testBit_devminor dev, devmajor_eq_div_mod dev,
    devminor_eq_div_mod dev, Nat.lt_trans (devmajor_lt dev) (by norm_num),
    Nat.lt_trans (devminor_lt dev) (by norm_num)⟩

/-- C2: `isKcovFd dev` is true exactly when the major is 22 and the minor lies
in `[232, 248)`; it is false for every device with major 22 and minor 231 and
for every device with major 22 and minor 248 (such devices exist: `0x16E7` and
`0x16F8`), and true at both ends of the range (`0x16E8`, `0x16F7`). -/
theorem isKcovFd_iff (dev : Nat) :
    (isKcovFd dev = true ↔ devmajor dev = 22 ∧ 232 ≤ devminor dev ∧ devminor dev < 248)
    ∧ (devmajor dev = 22 → devminor dev = 231 → isKcovFd dev = false)
    ∧ (devmajor dev = 22 → devminor dev = 248 → isKcovFd dev = false)
    ∧ (devmajor 0x16E7 = 22 ∧ devminor 0x16E7 = 231 ∧ isKcovFd 0x16E7 = false)
    ∧ (devmajor 0x16F8 = 22 ∧ devminor 0x16F8 = 248 ∧ isKcovFd 0x16F8 = false)
    ∧ isKcovFd 0x16E8 = true ∧ isKcovFd 0x16F7 = true := by
  refine ⟨?_, ?_, ?_, by decide, by decide, by decide, by decide⟩
  · simp [isKcovFd, devFdMajor, kcovFdMinorMin, kcovFdMinorMax, and_assoc]
  · intro h1 h2
    simp [isKcovFd, devFdMajor, kcovFdMinorMin, kcovFdMinorMax, h1, h2]
  · intro h1 h2
    simp [isKcovFd, devFdMajor, kcovFdMinorMin, kcovFdMinorMax, h1, h2]

/-! ## The chflags rule -/

/-- C3: for a call named `chflags` or `fchflags` (argument 1) or `chflagsat`
(argument 2) whose targeted argument is a constant `v`, `SanitizeCall` returns
and leaves that argument with value `v AND NOT (0x2 | 0x4 | 0x20000 | 0x40000)`,
that is `v AND 0xFFFFFFFFFFF9FFF9`: bits 1, 2, 17 and 18 are clear and every
other one of the 64 bits is the bit of `v`; `0xFFFFFFFF` becomes
`0xFFF9FFF9`. -/
theorem SanitizeCall_chflags_clears (a : arch) (c : Call) (argStart v : Nat)
    (hname : (c.Meta.CallName = "chflags" ∨ c.Meta.CallName = "fchflags") ∧ argStart = 1
      ∨ c.Meta.CallName = "chflagsat" ∧ argStart = 2)
    (harg : c.Args[argStart]? = some (Arg.const v)) :
    ∃ c' v', SanitizeCall a c = Outcome.returned c'
      ∧ c'.Args[argStart]? = some (Arg.const v')
      ∧ v' = v &&& not64 (0x2 ||| 0x4 ||| 0x20000 ||| 0x40000)
      ∧ v' = v &&& 0xFFFFFFFFFFF9FFF9
      ∧ (∀ i, i < 64 →
          v'.testBit i = (v.testBit i && !decide (i = 1 ∨ i = 2 ∨ i = 17 ∨ i = 18)))
      ∧ (v = 0xFFFFFFFF → v' = 0xFFF9FFF9) := by
  have hrun : SanitizeCall a c = sanitizeChflags argStart c := by
    rcases hname with ⟨hn, rfl⟩ | ⟨hn, rfl⟩
    · exact SanitizeCall_chflags a c hn
    · exact SanitizeCall_chflagsat a c hn
  refine ⟨_, clearBadflags v, hrun.trans (sanitizeChflags_const argStart v c harg),
    getElem?_set_of_some harg, clearBadflags_eq v,
    (clearBadflags_eq v).trans (clearBadflags_mask v), ?_, ?_⟩
  · intro i hi
    rw [clearBadflags_eq, testBit_clearMask]
    simp [hi]
  · intro hv
    subst hv
    decide

theorem SanitizeCall_chflags_clears_witness :
    (((⟨⟨"chflags"⟩, [Arg.other 7, Arg.const 0xFFFFFFFF]⟩ : Call).Meta.CallName = "chflags"
        ∨ (⟨⟨"chflags"⟩, [Arg.other 7, Arg.const 0xFFFFFFFF]⟩ : Call).Meta.CallName = "fchflags")
        ∧ 1 = 1
      ∨ (⟨⟨"chflags"⟩, [Arg.other 7, Arg.const 0xFFFFFFFF]⟩ : Call).Meta.CallName = "chflagsat"
        ∧ 1 = 2)
    ∧ (⟨⟨"chflags"⟩, [Arg.other 7, Arg.const 0xFFFFFFFF]⟩ : Call).Args[1]?
        = some (Arg.const 0xFFFFFFFF)
    ∧ ∃ c' v', SanitizeCall ⟨unixId, 0xF000, 0x2000⟩
          ⟨⟨"chflags"⟩, [Arg.other 7, Arg.const 0xFFFFFFFF]⟩ = Outcome.returned c'
      ∧ c'.Args[1]? = some (Arg.const v')
      ∧ v' = 0xFFFFFFFF &&& not64 (0x2 ||| 0x4 ||| 0x20000 ||| 0x40000)
      ∧ v' = 0xFFFFFFFF &&& 0xFFFFFFFFFFF9FFF9
      ∧ (∀ i, i < 64 →
          v'.testBit i
            = (Nat.testBit 0xFFFFFFFF i && !decide (i = 1 ∨ i = 2 ∨ i = 17 ∨ i = 18)))
      ∧ (0xFFFFFFFF = 0xFFFFFFFF → v' = 0xFFF9FFF9) :=
  ⟨Or.inl ⟨Or.inl rfl, rfl⟩, rfl,
    SanitizeCall_chflags_clears ⟨unixId, 0xF000, 0x2000⟩
      ⟨⟨"chflags"⟩, [Arg.other 7, Arg.const 0xFFFFFFFF]⟩ 1 0xFFFFFFFF
      (Or.inl ⟨Or.inl rfl, rfl⟩) rfl⟩

/-! ## The mknod rule -/

/-- C4: for a call named `mknod` (`argStart = 1`) or `mknodat`
(`argStart = 2`) with constant mode and device arguments, and for every pair
of constants `S_IFMT`, `S_IFCHR` held by the receiver, `SanitizeCall` returns
and leaves the mode argument at position `argStart` equal to
`(mode AND NOT S_IFMT) OR S_IFCHR` when `mode AND S_IFMT = S_IFMT`, and equal
to the original mode otherwise; `AND NOT` keeps bit `i` of the mode exactly
when `i < 64` and bit `i` of `S_IFMT` is clear. -/
theorem SanitizeCall_mknod_mode (a : arch) (c : Call) (argStart mode dev : Nat)
    (hname : c.Meta.CallName = "mknod" ∧ argStart = 1
      ∨ c.Meta.CallName = "mknodat" ∧ argStart = 2)
    (hmode : c.Args[argStart]? = some (Arg.const mode))
    (hdev : c.Args[argStart + 1]? = some (Arg.const dev)) :
    ∃ c', SanitizeCall a c = Outcome.returned c'
      ∧ c'.Args[argStart]? = some (Arg.const
          (if mode &&& a.S_IFMT = a.S_IFMT then (mode &&& not64 a.S_IFMT) ||| a.S_IFCHR
           else mode))
      ∧ (∀ i, (mode &&& not64 a.S_IFMT).testBit i
          = (mode.testBit i && (decide (i < 64) && !a.S_IFMT.testBit i))) := by
  have hrun : SanitizeCall a c = sanitizeMknod a argStart c := by
    rcases hname with ⟨hn, rfl⟩ | ⟨hn, rfl⟩
    · exact SanitizeCall_mknod a c hn
    · exact SanitizeCall_mknodat a c hn
  refine ⟨_, hrun.trans (sanitizeMknod_const a argStart mode dev c hmode hdev), ?_, ?_⟩
  · have hne : argStart + 1 ≠ argStart := by omega
    show ((c.Args.set argStart _).set (argStart + 1) _)[argStart]? = _
    rw [List.getElem?_set_ne hne, getElem?_set_of_some hmode]
    rfl
  · intro i
    rw [Nat.testBit_and, testBit_not64]

theorem SanitizeCall_mknod_mode_witness :
    ((⟨⟨"mknodat"⟩, [Arg.other 3, Arg.other 4, Arg.const 0xF1A4, Arg.const 0x1234]⟩ : Call).Meta.CallName
          = "mknod" ∧ 2 = 1
      ∨ (⟨⟨"mknodat"⟩, [Arg.other 3, Arg.other 4, Arg.const 0xF1A4, Arg.const 0x1234]⟩ : Call).Meta.CallName
          = "mknodat" ∧ 2 = 2)
    ∧ SanitizeCall ⟨unixId, 0xF000, 0x2000⟩
        ⟨⟨"mknodat"⟩, [Arg.other 3, Arg.other 4, Arg.const 0xF1A4, Arg.const 0x1234]⟩
      = Outcome.returned
        ⟨⟨"mknodat"⟩, [Arg.other 3, Arg.other 4, Arg.const 0x21A4, Arg.const 0x1234]⟩
    ∧ ∃ c', SanitizeCall ⟨unixId, 0xF000, 0x2000⟩
          ⟨⟨"mknodat"⟩, [Arg.other 3, Arg.other 4, Arg.const 0xF1A4, Arg.const 0x1234]⟩
        = Outcome.returned c'
      ∧ c'.Args[2]? = some (Arg.const
          (if 0xF1A4 &&& 0xF000 = 0xF000 then (0xF1A4 &&& not64 0xF000) ||| 0x2000 else 0xF1A4))
      ∧ (∀ i, (0xF1A4 &&& not64 0xF000).testBit i
          = (Nat.testBit 0xF1A4 i && (decide (i < 64) && !Nat.testBit 0xF000 i))) :=
  ⟨Or.inr ⟨rfl, rfl⟩, by decide,
    SanitizeCall_mknod_mode ⟨unixId, 0xF000, 0x2000⟩
      ⟨⟨"mknodat"⟩, [Arg.other 3, Arg.other 4, Arg.const 0xF1A4, Arg.const 0x1234]⟩ 2 0xF1A4 0x1234
      (Or.inr ⟨rfl, rfl⟩) rfl rfl⟩

/-- C5: for every `mknod` call with constant mode and device arguments whose
mode has its file-type bits equal to the file-type mask
(`mode AND S_IFMT = S_IFMT`), `SanitizeCall` returns with a mode whose
file-type bits equal the character-device tag (`mode' AND S_IFMT = S_IFCHR`)
and whose bits outside the mask are those of the original mode
(`mode' AND NOT S_IFMT = mode AND NOT S_IFMT`).  The constants are those the
adapter holds: a file-type mask and a tag of that file-type field
(`S_IFCHR AND S_IFMT = S_IFCHR`), which the OpenBSD pair `0xF000`, `0x2000`
is. -/
theorem SanitizeCall_mknod_mode_reserved (a : arch) (c : Call) (mode dev : Nat)
    (hname : c.Meta.CallName = "mknod")
    (hmode : c.Args[1]? = some (Arg.const mode))
    (hdev : c.Args[2]? = some (Arg.const dev))
    (hres : mode &&& a.S_IFMT = a.S_IFMT)
    (htag : a.S_IFCHR &&& a.S_IFMT = a.S_IFCHR) :
    (∃ c' mode', SanitizeCall a c = Outcome.returned c'
      ∧ c'.Args[1]? = some (Arg.const mode')
      ∧ mode' &&& a.S_IFMT = a.S_IFCHR
      ∧ mode' &&& not64 a.S_IFMT = mode &&& not64 a.S_IFMT)
    ∧ (∀ F C, openbsdConsts "S_IFMT" = some F → openbsdConsts "S_IFCHR" = some C →
        F = 0xF000 ∧ C = 0x2000 ∧ C &&& F = C) := by
  refine ⟨?_, ?_⟩
  swap
  · intro F C hF hC
    have hF2 : openbsdConsts "S_IFMT" = some 0xF000 := by decide
    have hC2 : openbsdConsts "S_IFCHR" = some 0x2000 := by decide
    rw [hF2] at hF
    rw [hC2] at hC
    have eF : F = 0xF000 := (Option.some.inj hF).symm
    have eC : C = 0x2000 := (Option.some.inj hC).symm
    subst eF
    subst eC
    exact ⟨rfl, rfl, by decide⟩
  have hne : (1 + 1 : Nat) ≠ 1 := by omega
  have hbit : ∀ i, a.S_IFCHR.testBit i = true → a.S_IFMT.testBit i = true := by
    intro i hi
    have h := congrArg (fun n => Nat.testBit n i) htag
    simp only [Nat.testBit_and, hi, Bool.true_and] at h
    exact h
  refine ⟨_, fixMode a mode,
    (SanitizeCall_mknod a c hname).trans (sanitizeMknod_const a 1 mode dev c hmode hdev), ?_, ?_, ?_⟩
  · show ((c.Args.set 1 _).set (1 + 1) _)[1]? = _
    rw [List.getElem?_set_ne hne, getElem?_set_of_some hmode]
  · unfold fixMode
    rw [if_pos hres]
    apply Nat.eq_of_testBit_eq
    intro i
    simp only [Nat.testBit_and, Nat.testBit_or, testBit_not64]
    have h := hbit i
    cases hC : a.S_IFCHR.testBit i <;> cases hF : a.S_IFMT.testBit i <;> simp_all
  · unfold fixMode
    rw [if_pos hres]
    apply Nat.eq_of_testBit_eq
    intro i
    simp only [Nat.testBit_and, Nat.testBit_or, testBit_not64]
    have h := hbit i
    cases hC : a.S_IFCHR.testBit i <;> cases hF : a.S_IFMT.testBit i <;> simp_all

theorem SanitizeCall_mknod_mode_reserved_witness :
    (⟨⟨"mknod"⟩, [Arg.other 0, Arg.const 0xF1ED, Arg.const 0x0305]⟩ : Call).Meta.CallName = "mknod"
    ∧ 0xF1ED &&& (⟨unixId, 0xF000, 0x2000⟩ : arch).S_IFMT = (⟨unixId, 0xF000, 0x2000⟩ : arch).S_IFMT
    ∧ (⟨unixId, 0xF000, 0x2000⟩ : arch).S_IFCHR &&& (⟨unixId, 0xF000, 0x2000⟩ : arch).S_IFMT
        = (⟨unixId, 0xF000, 0x2000⟩ : arch).S_IFCHR
    ∧ SanitizeCall ⟨unixId, 0xF000, 0x2000⟩
        ⟨⟨"mknod"⟩, [Arg.other 0, Arg.const 0xF1ED, Arg.const 0x0305]⟩
      = Outcome.returned ⟨⟨"mknod"⟩, [Arg.other 0, Arg.const 0x21ED, Arg.const 0x0305]⟩
    ∧ ((∃ c' mode', SanitizeCall ⟨unixId, 0xF000, 0x2000⟩
          ⟨⟨"mknod"⟩, [Arg.other 0, Arg.const 0xF1ED, Arg.const 0x0305]⟩ = Outcome.returned c'
      ∧ c'.Args[1]? = some (Arg.const mode')
      ∧ mode' &&& (⟨unixId, 0xF000, 0x2000⟩ : arch).S_IFMT = (⟨unixId, 0xF000, 0x2000⟩ : arch).S_IFCHR
      ∧ mode' &&& not64 (⟨unixId, 0xF000, 0x2000⟩ : arch).S_IFMT
          = 0xF1ED &&& not64 (⟨unixId, 0xF000, 0x2000⟩ : arch).S_IFMT)
      ∧ (∀ F C, openbsdConsts "S_IFMT" = some F → openbsdConsts "S_IFCHR" = some C →
          F = 0xF000 ∧ C = 0x2000 ∧ C &&& F = C)) :=
  ⟨rfl, by decide, by decide, by decide,
    SanitizeCall_mknod_mode_reserved ⟨unixId, 0xF000, 0x2000⟩
      ⟨⟨"mknod"⟩, [Arg.other 0, Arg.const 0xF1ED, Arg.const 0x0305]⟩ 0xF1ED 0x0305
      rfl rfl rfl (by decide) (by decide)⟩

/-- C6: for a call named `mknod` (`argStart = 1`) or `mknodat`
(`argStart = 2`) with constant mode and device arguments and device value `d`
at position `argStart + 1`, `SanitizeCall` returns and leaves that argument
equal to the null-device sentinel `0x0202` if `isKcovFd d` holds or if
`devmajor d = 4` and `devminor d = 2`, and equal to `d` otherwise.  Major 22,
minor 240 is the value `0x16F0`, which `isKcovFd` accepts; major 4, minor 2
is the value `0x0402`. -/
theorem SanitizeCall_mknod_dev (a : arch) (c : Call) (argStart mode d : Nat)
    (hname : c.Meta.CallName = "mknod" ∧ argStart = 1
      ∨ c.Meta.CallName = "mknodat" ∧ argStart = 2)
    (hmode : c.Args[argStart]? = some (Arg.const mode))
    (hdev : c.Args[argStart + 1]? = some (Arg.const d)) :
    ∃ c', SanitizeCall a c = Outcome.returned c'
      ∧ c'.Args[argStart + 1]? = some (Arg.const
          (if isKcovFd d = true ∨ (devmajor d = 4 ∧ devminor d = 2) then 0x0202 else d))
      ∧ (devmajor 0x16F0 = 22 ∧ devminor 0x16F0 = 240 ∧ isKcovFd 0x16F0 = true)
      ∧ (devmajor 0x0402 = 4 ∧ devminor 0x0402 = 2) := by
  have hrun : SanitizeCall a c = sanitizeMknod a argStart c := by
    rcases hname with ⟨hn, rfl⟩ | ⟨hn, rfl⟩
    · exact SanitizeCall_mknod a c hn
    · exact SanitizeCall_mknodat a c hn
  have hne : argStart ≠ argStart + 1 := by omega
  have hdev1 : (c.Args.set argStart (Arg.const (fixMode a mode)))[argStart + 1]?
      = some (Arg.const d) := by
    rw [List.getElem?_set_ne hne, hdev]
  refine ⟨_, hrun.trans (sanitizeMknod_const a argStart mode d c hmode hdev), ?_,
    by decide, by decide⟩
  show ((c.Args.set argStart _).set (argStart + 1) _)[argStart + 1]? = _
  rw [getElem?_set_of_some hdev1, fixDev_eq]
  rfl

theorem SanitizeCall_mknod_dev_witness :
    ((⟨⟨"mknod"⟩, [Arg.other 0, Arg.const 0x21A4, Arg.const 0x16F0]⟩ : Call).Meta.CallName
          = "mknod" ∧ 1 = 1
      ∨ (⟨⟨"mknod"⟩, [Arg.other 0, Arg.const 0x21A4, Arg.const 0x16F0]⟩ : Call).Meta.CallName
          = "mknodat" ∧ 1 = 2)
    ∧ SanitizeCall ⟨unixId, 0xF000, 0x2000⟩
        ⟨⟨"mknod"⟩, [Arg.other 0, Arg.const 0x21A4, Arg.const 0x16F0]⟩
      = Outcome.returned ⟨⟨"mknod"⟩, [Arg.other 0, Arg.const 0x21A4, Arg.const 0x0202]⟩
    ∧ SanitizeCall ⟨unixId, 0xF000, 0x2000⟩
        ⟨⟨"mknod"⟩, [Arg.other 0, Arg.const 0x21A4, Arg.const 0x0402]⟩
      = Outcome.returned ⟨⟨"mknod"⟩, [Arg.other 0, Arg.const 0x21A4, Arg.const 0x0202]⟩
    ∧ SanitizeCall ⟨unixId, 0xF000, 0x2000⟩
        ⟨⟨"mknod"⟩, [Arg.other 0, Arg.const 0x21A4, Arg.const 0x0305]⟩
      = Outcome.returned ⟨⟨"mknod"⟩, [Arg.other 0, Arg.const 0x21A4, Arg.const 0x0305]⟩
    ∧ ∃ c', SanitizeCall ⟨unixId, 0xF000, 0x2000⟩
          ⟨⟨"mknod"⟩, [Arg.other 0, Arg.const 0x21A4, Arg.const 0x16F0]⟩ = Outcome.returned c'
      ∧ c'.Args[1 + 1]? = some (Arg.const
          (if isKcovFd 0x16F0 = true ∨ (devmajor 0x16F0 = 4 ∧ devminor 0x16F0 = 2) then 0x0202
           else 0x16F0))
      ∧ (devmajor 0x16F0 = 22 ∧ devminor 0x16F0 = 240 ∧ isKcovFd 0x16F0 = true)
      ∧ (devmajor 0x0402 = 4 ∧ devminor 0x0402 = 2) :=
  ⟨Or.inl ⟨rfl, rfl⟩, by decide, by decide, by decide,
    SanitizeCall_mknod_dev ⟨unixId, 0xF000, 0x2000⟩
      ⟨⟨"mknod"⟩, [Arg.other 0, Arg.const 0x21A4, Arg.const 0x16F0]⟩ 1 0x21A4 0x16F0
      (Or.inl ⟨rfl, rfl⟩) rfl rfl⟩

/-! ## Argument offsets, idempotence, delegation -/

/-- C7: the at-variants act one argument position later than the base variants
and leave earlier arguments untouched.  If sanitizing the base call (`chflags`,
resp. `mknod`) with arguments `args` returns a call with arguments `args'`, then
sanitizing the at-variant (`chflagsat`, resp. `mknodat`) with arguments
`x :: args` returns the same call with arguments `x :: args'`; and in the base
variant argument 0 is unchanged (so arguments 0 and 1 of the at-variant are
unchanged). -/
theorem SanitizeCall_at_variant_offset (a : arch) (x : Arg) (base atc r : Call)
    (hname : base.Meta.CallName = "chflags" ∧ atc.Meta.CallName = "chflagsat"
      ∨ base.Meta.CallName = "mknod" ∧ atc.Meta.CallName = "mknodat")
    (hargs : atc.Args = x :: base.Args)
    (hbase : SanitizeCall a base = Outcome.returned r) :
    SanitizeCall a atc = Outcome.returned { atc with Args := x :: r.Args }
    ∧ r.Args[0]? = base.Args[0]?
    ∧ r.Meta = base.Meta := by
  have h01 : (0 : Nat) ≠ 1 := by omega
  have h10 : (1 : Nat) ≠ 0 := by omega
  have h20 : (1 + 1 : Nat) ≠ 0 := by omega
  rcases hname with ⟨hb, ha⟩ | ⟨hb, ha⟩
  · rw [SanitizeCall_chflags a base (Or.inl hb)] at hbase
    obtain ⟨v, hv, rfl⟩ := sanitizeChflags_returned 1 base r hbase
    have hv2 : atc.Args[2]? = some (Arg.const v) := by
      rw [hargs, List.getElem?_cons_succ, hv]
    refine ⟨?_, ?_, rfl⟩
    · rw [SanitizeCall_chflagsat a atc ha, sanitizeChflags_const 2 v atc hv2, hargs,
        List.set_cons_succ]
    · show (base.Args.set 1 _)[0]? = _
      rw [List.getElem?_set_ne h10]
  · rw [SanitizeCall_mknod a base hb] at hbase
    obtain ⟨m, d, hm, hd, rfl⟩ := sanitizeMknod_returned a 1 base r hbase
    have hm2 : atc.Args[2]? = some (Arg.const m) := by
      rw [hargs, List.getElem?_cons_succ, hm]
    have hd2 : atc.Args[2 + 1]? = some (Arg.const d) := by
      rw [hargs, List.getElem?_cons_succ, hd]
    refine ⟨?_, ?_, rfl⟩
    · rw [SanitizeCall_mknodat a atc ha, sanitizeMknod_const a 2 m d atc hm2 hd2, hargs,
        List.set_cons_succ, List.set_cons_succ]
    · show ((base.Args.set 1 _).set (1 + 1) _)[0]? = _
      rw [List.getElem?_set_ne h20, List.getElem?_set_ne h10]

theorem SanitizeCall_at_variant_offset_witness :
    ((⟨⟨"mknod"⟩, [Arg.other 5, Arg.const 0xF1A4, Arg.const 0x0402]⟩ : Call).Meta.CallName
          = "chflags"
        ∧ (⟨⟨"mknodat"⟩, [Arg.other 9, Arg.other 5, Arg.const 0xF1A4, Arg.const 0x0402]⟩
            : Call).Meta.CallName = "chflagsat"
      ∨ (⟨⟨"mknod"⟩, [Arg.other 5, Arg.const 0xF1A4, Arg.const 0x0402]⟩ : Call).Meta.CallName
          = "mknod"
        ∧ (⟨⟨"mknodat"⟩, [Arg.other 9, Arg.other 5, Arg.const 0xF1A4, Arg.const 0x0402]⟩
            : Call).Meta.CallName = "mknodat")
    ∧ SanitizeCall ⟨unixId, 0xF000, 0x2000⟩
        ⟨⟨"mknod"⟩, [Arg.other 5, Arg.const 0xF1A4, Arg.const 0x0402]⟩
      = Outcome.returned ⟨⟨"mknod"⟩, [Arg.other 5, Arg.const 0x21A4, Arg.const 0x0202]⟩
    ∧ (SanitizeCall ⟨unixId, 0xF000, 0x2000⟩
          ⟨⟨"mknodat"⟩, [Arg.other 9, Arg.other 5, Arg.const 0xF1A4, Arg.const 0x0402]⟩
        = Outcome.returned
          ⟨⟨"mknodat"⟩, Arg.other 9 :: [Arg.other 5, Arg.const 0x21A4, Arg.const 0x0202]⟩
      ∧ [Arg.other 5, Arg.const 0x21A4, Arg.const 0x0202][0]?
          = [Arg.other 5, Arg.const 0xF1A4, Arg.const 0x0402][0]?
      ∧ (⟨"mknod"⟩ : Syscall) = ⟨"mknod"⟩) :=
  ⟨Or.inr ⟨rfl, rfl⟩, by decide,
    SanitizeCall_at_variant_offset ⟨unixId, 0xF000, 0x2000⟩ (Arg.other 9)
      ⟨⟨"mknod"⟩, [Arg.other 5, Arg.const 0xF1A4, Arg.const 0x0402]⟩
      ⟨⟨"mknodat"⟩, [Arg.other 9, Arg.other 5, Arg.const 0xF1A4, Arg.const 0x0402]⟩
      ⟨⟨"mknod"⟩, [Arg.other 5, Arg.const 0x21A4, Arg.const 0x0202]⟩
      (Or.inr ⟨rfl, rfl⟩) rfl (by decide)⟩

/-- C8: `SanitizeCall` is idempotent on the five names it handles itself: if
sanitizing a call named `chflags`, `fchflags`, `chflagsat`, `mknod` or
`mknodat` returns the call `r`, then sanitizing `r` returns `r` again, for
every pair of constants `S_IFMT`, `S_IFCHR`. -/
theorem SanitizeCall_idempotent (a : arch) (c r : Call)
    (hname : c.Meta.CallName = "chflags" ∨ c.Meta.CallName = "fchflags"
      ∨ c.Meta.CallName = "chflagsat" ∨ c.Meta.CallName = "mknod"
      ∨ c.Meta.CallName = "mknodat")
    (hrun : SanitizeCall a c = Outcome.returned r) :
    SanitizeCall a r = Outcome.returned r := by
  have chflagsCase : ∀ i, sanitizeChflags i c = Outcome.returned r →
      sanitizeChflags i r = Outcome.returned r := by
    intro i h
    obtain ⟨v, hv, rfl⟩ := sanitizeChflags_returned i c r h
    have hv2 : (c.Args.set i (Arg.const (clearBadflags v)))[i]?
        = some (Arg.const (clearBadflags v)) := getElem?_set_of_some hv
    rw [sanitizeChflags_const i (clearBadflags v) _ hv2]
    show Outcome.returned { c with Args := (c.Args.set i _).set i _ } = _
    rw [clearBadflags_idem, List.set_set]
  have mknodCase : ∀ i, sanitizeMknod a i c = Outcome.returned r →
      sanitizeMknod a i r = Outcome.returned r := by
    intro i h
    obtain ⟨m, d, hm, hd, rfl⟩ := sanitizeMknod_returned a i c r h
    have hne : i ≠ i + 1 := by omega
    have hd1 : (c.Args.set i (Arg.const (fixMode a m)))[i + 1]? = some (Arg.const d) := by
      rw [List.getElem?_set_ne hne, hd]
    have hm2 : ((c.Args.set i (Arg.const (fixMode a m))).set (i + 1) (Arg.const (fixDev d)))[i]?
        = some (Arg.const (fixMode a m)) := by
      rw [List.getElem?_set_ne hne.symm, getElem?_set_of_some hm]
    have hd2 : ((c.Args.set i (Arg.const (fixMode a m))).set (i + 1) (Arg.const (fixDev d)))[i + 1]?
        = some (Arg.const (fixDev d)) := getElem?_set_of_some hd1
    rw [sanitizeMknod_const a i (fixMode a m) (fixDev d) _ hm2 hd2]
    show Outcome.returned { c with Args := _ } = _
    rw [fixMode_idem, fixDev_idem, set_of_getElem? hm2, set_of_getElem? hd2]
  rcases hname with h | h | h | h | h
  · rw [SanitizeCall_chflags a c (Or.inl h)] at hrun
    have hr : r.Meta.CallName = "chflags" := by
      obtain ⟨v, _, rfl⟩ := sanitizeChflags_returned 1 c r hrun
      exact h
    rw [SanitizeCall_chflags a r (Or.inl hr)]
    exact chflagsCase 1 hrun
  · rw [SanitizeCall_chflags a c (Or.inr h)] at hrun
    have hr : r.Meta.CallName = "fchflags" := by
      obtain ⟨v, _, rfl⟩ := sanitizeChflags_returned 1 c r hrun
      exact h
    rw [SanitizeCall_chflags a r (Or.inr hr)]
    exact chflagsCase 1 hrun
  · rw [SanitizeCall_chflagsat a c h] at hrun
    have hr : r.Meta.CallName = "chflagsat" := by
      obtain ⟨v, _, rfl⟩ := sanitizeChflags_returned 2 c r hrun
      exact h
    rw [SanitizeCall_chflagsat a r hr]
    exact chflagsCase 2 hrun
  · rw [SanitizeCall_mknod a c h] at hrun
    have hr : r.Meta.CallName = "mknod" := by
      obtain ⟨m, d, _, _, rfl⟩ := sanitizeMknod_returned a 1 c r hrun
      exact h
    rw [SanitizeCall_mknod a r hr]
    exact mknodCase 1 hrun
  · rw [SanitizeCall_mknodat a c h] at hrun
    have hr : r.Meta.CallName = "mknodat" := by
      obtain ⟨m, d, _, _, rfl⟩ := sanitizeMknod_returned a 2 c r hrun
      exact h
    rw [SanitizeCall_mknodat a r hr]
    exact mknodCase 2 hrun

theorem SanitizeCall_idempotent_witness :
    ((⟨⟨"mknodat"⟩, [Arg.other 1, Arg.other 2, Arg.const 0xF1A4, Arg.const 0x16F0]⟩
          : Call).Meta.CallName = "chflags"
      ∨ (⟨⟨"mknodat"⟩, [Arg.other 1, Arg.other 2, Arg.const 0xF1A4, Arg.const 0x16F0]⟩
          : Call).Meta.CallName = "fchflags"
      ∨ (⟨⟨"mknodat"⟩, [Arg.other 1, Arg.other 2, Arg.const 0xF1A4, Arg.const 0x16F0]⟩
          : Call).Meta.CallName = "chflagsat"
      ∨ (⟨⟨"mknodat"⟩, [Arg.other 1, Arg.other 2, Arg.const 0xF1A4, Arg.const 0x16F0]⟩
          : Call).Meta.CallName = "mknod"
      ∨ (⟨⟨"mknodat"⟩, [Arg.other 1, Arg.other 2, Arg.const 0xF1A4, Arg.const 0x16F0]⟩
          : Call).Meta.CallName = "mknodat")
    ∧ SanitizeCall ⟨unixId, 0xF000, 0x2000⟩
        ⟨⟨"mknodat"⟩, [Arg.other 1, Arg.other 2, Arg.const 0xF1A4, Arg.const 0x16F0]⟩
      = Outcome.returned
        ⟨⟨"mknodat"⟩, [Arg.other 1, Arg.other 2, Arg.const 0x21A4, Arg.const 0x0202]⟩
    ∧ SanitizeCall ⟨unixId, 0xF000, 0x2000⟩
        ⟨⟨"mknodat"⟩, [Arg.other 1, Arg.other 2, Arg.const 0x21A4, Arg.const 0x0202]⟩
      = Outcome.returned
        ⟨⟨"mknodat"⟩, [Arg.other 1, Arg.other 2, Arg.const 0x21A4, Arg.const 0x0202]⟩ :=
  ⟨Or.inr (Or.inr (Or.inr (Or.inr rfl))), by decide,
    SanitizeCall_idempotent ⟨unixId, 0xF000, 0x2000⟩
      ⟨⟨"mknodat"⟩, [Arg.other 1, Arg.other 2, Arg.const 0xF1A4, Arg.const 0x16F0]⟩
      ⟨⟨"mknodat"⟩, [Arg.other 1, Arg.other 2, Arg.const 0x21A4, Arg.const 0x0202]⟩
      (Or.inr (Or.inr (Or.inr (Or.inr rfl)))) (by decide)⟩

/-- C9: for a call whose name is none of `chflagsat`, `chflags`, `fchflags`,
`mknodat`, `mknod`, `SanitizeCall` performs no rewrite of its own: its outcome
is exactly the outcome of the generic unix sanitizer on the original call; in
particular, where the generic sanitizer returns the call unchanged, so does
`SanitizeCall`. -/
theorem SanitizeCall_delegates (a : arch) (c : Call)
    (h1 : c.Meta.CallName ≠ "chflagsat") (h2 : c.Meta.CallName ≠ "chflags")
    (h3 : c.Meta.CallName ≠ "fchflags") (h4 : c.Meta.CallName ≠ "mknodat")
    (h5 : c.Meta.CallName ≠ "mknod") :
    SanitizeCall a c = a.unix c
    ∧ (a.unix c = Outcome.returned c → SanitizeCall a c = Outcome.returned c) := by
  have h := SanitizeCall_default a c h1 h2 h3 h4 h5
  exact ⟨h, fun hu => h.trans hu⟩

theorem SanitizeCall_delegates_witness :
    (⟨⟨"open"⟩, [Arg.other 1, Arg.const 0x60006, Arg.const 0xF1A4]⟩ : Call).Meta.CallName
        ≠ "chflagsat"
    ∧ (⟨⟨"open"⟩, [Arg.other 1, Arg.const 0x60006, Arg.const 0xF1A4]⟩ : Call).Meta.CallName
        ≠ "chflags"
    ∧ (⟨⟨"open"⟩, [Arg.other 1, Arg.const 0x60006, Arg.const 0xF1A4]⟩ : Call).Meta.CallName
        ≠ "fchflags"
    ∧ (⟨⟨"open"⟩, [Arg.other 1, Arg.const 0x60006, Arg.const 0xF1A4]⟩ : Call).Meta.CallName
        ≠ "mknodat"
    ∧ (⟨⟨"open"⟩, [Arg.other 1, Arg.const 0x60006, Arg.const 0xF1A4]⟩ : Call).Meta.CallName
        ≠ "mknod"
    ∧ SanitizeCall ⟨unixId, 0xF000, 0x2000⟩
        ⟨⟨"open"⟩, [Arg.other 1, Arg.const 0x60006, Arg.const 0xF1A4]⟩
      = Outcome.returned ⟨⟨"open"⟩, [Arg.other 1, Arg.const 0x60006, Arg.const 0xF1A4]⟩
    ∧ (SanitizeCall ⟨unixId, 0xF000, 0x2000⟩
          ⟨⟨"open"⟩, [Arg.other 1, Arg.const 0x60006, Arg.const 0xF1A4]⟩
        = (⟨unixId, 0xF000, 0x2000⟩ : arch).unix
            ⟨⟨"open"⟩, [Arg.other 1, Arg.const 0x60006, Arg.const 0xF1A4]⟩
      ∧ ((⟨unixId, 0xF000, 0x2000⟩ : arch).unix
            ⟨⟨"open"⟩, [Arg.other 1, Arg.const 0x60006, Arg.const 0xF1A4]⟩
          = Outcome.returned ⟨⟨"open"⟩, [Arg.other 1, Arg.const 0x60006, Arg.const 0xF1A4]⟩ →
        SanitizeCall ⟨unixId, 0xF000, 0x2000⟩
          ⟨⟨"open"⟩, [Arg.other 1, Arg.const 0x60006, Arg.const 0xF1A4]⟩
        = Outcome.returned ⟨⟨"open"⟩, [Arg.other 1, Arg.const 0x60006, Arg.const 0xF1A4]⟩)) :=
  ⟨by decide, by decide, by decide, by decide, by decide, by decide,
    SanitizeCall_delegates ⟨unixId, 0xF000, 0x2000⟩
      ⟨⟨"open"⟩, [Arg.other 1, Arg.const 0x60006, Arg.const 0xF1A4]⟩
      (by decide) (by decide) (by decide) (by decide) (by decide)⟩

/-! ## Arguments that are not constants -/

/-- C10 (counterexample): `chflags` with a non-constant argument at position 1
does not return with the call unchanged; the type assertion panics. -/
theorem SanitizeCall_chflags_nonconst_panics :
    1 ∈ targetedPositions (⟨⟨"chflags"⟩, [Arg.other 0, Arg.other 1]⟩ : Call).Meta.CallName
    ∧ (⟨⟨"chflags"⟩, [Arg.other 0, Arg.other 1]⟩ : Call).Args[1]? = some (Arg.other 1)
    ∧ SanitizeCall ⟨unixId, 0xF000, 0x2000⟩ ⟨⟨"chflags"⟩, [Arg.other 0, Arg.other 1]⟩
      = Outcome.panicked ⟨⟨"chflags"⟩, [Arg.other 0, Arg.other 1]⟩
    ∧ SanitizeCall ⟨unixId, 0xF000, 0x2000⟩ ⟨⟨"chflags"⟩, [Arg.other 0, Arg.other 1]⟩
      ≠ Outcome.returned ⟨⟨"chflags"⟩, [Arg.other 0, Arg.other 1]⟩ := by
  decide

/-- C10 (amended): for a call named `chflags`, `fchflags`, `chflagsat`, `mknod`
or `mknodat` in which the argument at a position the rule targets is not a
constant-valued argument, `SanitizeCall` does not return normally: it panics.
The call is unchanged when it panics (the chflags family, and the mknod family
when the mode argument is not a constant), except that for `mknod`
(`argStart = 1`) and `mknodat` (`argStart = 2`) with a constant mode argument
`m` the non-constant argument is the device argument and the panic carries the
call with the mode rewrite already applied at position `argStart`. -/
theorem SanitizeCall_nonconst_panics (a : arch) (c : Call) (i : Nat) (x : Arg)
    (hi : i ∈ targetedPositions c.Meta.CallName)
    (hx : c.Args[i]? = some x) (hnc : ∀ v, x ≠ Arg.const v) :
    (∀ r, SanitizeCall a c ≠ Outcome.returned r)
    ∧ (c.Meta.CallName = "chflags" ∨ c.Meta.CallName = "fchflags"
        ∨ c.Meta.CallName = "chflagsat" →
        SanitizeCall a c = Outcome.panicked c)
    ∧ (∀ argStart,
        (c.Meta.CallName = "mknod" ∧ argStart = 1
          ∨ c.Meta.CallName = "mknodat" ∧ argStart = 2) →
        ((∀ v, c.Args[argStart]? ≠ some (Arg.const v)) →
          SanitizeCall a c = Outcome.panicked c)
        ∧ (∀ m, c.Args[argStart]? = some (Arg.const m) →
            i = argStart + 1
            ∧ SanitizeCall a c
              = Outcome.panicked
                  { c with Args := c.Args.set argStart (Arg.const (fixMode a m)) })) := by
  have hxv : ∀ v, c.Args[i]? ≠ some (Arg.const v) := by
    intro v hv
    rw [hx] at hv
    exact hnc v (Option.some.inj hv)
  have t1 : targetedPositions "chflags" = [1] := by decide
  have t2 : targetedPositions "fchflags" = [1] := by decide
  have t3 : targetedPositions "chflagsat" = [2] := by decide
  have t4 : targetedPositions "mknod" = [1, 1 + 1] := by decide
  have t5 : targetedPositions "mknodat" = [2, 2 + 1] := by decide
  have hchflags : c.Meta.CallName = "chflags" ∨ c.Meta.CallName = "fchflags"
      ∨ c.Meta.CallName = "chflagsat" → SanitizeCall a c = Outcome.panicked c := by
    intro hn
    rcases hn with h | h | h
    · rw [h, t1, List.mem_singleton] at hi
      subst hi
      exact (SanitizeCall_chflags a c (Or.inl h)).trans (sanitizeChflags_panics 1 c hxv)
    · rw [h, t2, List.mem_singleton] at hi
      subst hi
      exact (SanitizeCall_chflags a c (Or.inr h)).trans (sanitizeChflags_panics 1 c hxv)
    · rw [h, t3, List.mem_singleton] at hi
      subst hi
      exact (SanitizeCall_chflagsat a c h).trans (sanitizeChflags_panics 2 c hxv)
  have hbody : ∀ argStart, i ∈ [argStart, argStart + 1] →
      ((∀ v, c.Args[argStart]? ≠ some (Arg.const v)) →
        sanitizeMknod a argStart c = Outcome.panicked c)
      ∧ (∀ m, c.Args[argStart]? = some (Arg.const m) →
          i = argStart + 1
          ∧ sanitizeMknod a argStart c
            = Outcome.panicked
                { c with Args := c.Args.set argStart (Arg.const (fixMode a m)) }) := by
    intro argStart hmem
    have hj : i = argStart ∨ i = argStart + 1 := by simpa using hmem
    refine ⟨sanitizeMknod_panics_mode a argStart c, ?_⟩
    intro m hm
    have hi2 : i = argStart + 1 := by
      rcases hj with h | h
      · rw [h] at hxv
        exact absurd hm (hxv m)
      · exact h
    rw [hi2] at hxv
    exact ⟨hi2, sanitizeMknod_panics_dev a argStart m c hm hxv⟩
  have hmknod : ∀ argStart,
      (c.Meta.CallName = "mknod" ∧ argStart = 1
        ∨ c.Meta.CallName = "mknodat" ∧ argStart = 2) →
      ((∀ v, c.Args[argStart]? ≠ some (Arg.const v)) →
        SanitizeCall a c = Outcome.panicked c)
      ∧ (∀ m, c.Args[argStart]? = some (Arg.const m) →
          i = argStart + 1
          ∧ SanitizeCall a c
            = Outcome.panicked
                { c with Args := c.Args.set argStart (Arg.const (fixMode a m)) }) := by
    intro argStart hn
    rcases hn with ⟨h, rfl⟩ | ⟨h, rfl⟩
    · rw [h, t4] at hi
      rw [SanitizeCall_mknod a c h]
      exact hbody 1 hi
    · rw [h, t5] at hi
      rw [SanitizeCall_mknodat a c h]
      exact hbody 2 hi
  have hpanics : ∃ r, SanitizeCall a c = Outcome.panicked r := by
    by_cases h1 : c.Meta.CallName = "chflagsat"
    · exact ⟨c, hchflags (Or.inr (Or.inr h1))⟩
    by_cases h2 : c.Meta.CallName = "chflags" ∨ c.Meta.CallName = "fchflags"
    · exact ⟨c, hchflags (h2.elim Or.inl (fun h => Or.inr (Or.inl h)))⟩
    have hcases : ∀ argStart,
        (c.Meta.CallName = "mknod" ∧ argStart = 1
          ∨ c.Meta.CallName = "mknodat" ∧ argStart = 2) →
        ∃ r, SanitizeCall a c = Outcome.panicked r := by
      intro argStart hn
      by_cases hm : ∃ m, c.Args[argStart]? = some (Arg.const m)
      · obtain ⟨m, hm⟩ := hm
        exact ⟨_, ((hmknod argStart hn).2 m hm).2⟩
      · exact ⟨c, (hmknod argStart hn).1 (fun v hv => hm ⟨v, hv⟩)⟩
    by_cases h3 : c.Meta.CallName = "mknodat"
    · exact hcases 2 (Or.inr ⟨h3, rfl⟩)
    by_cases h4 : c.Meta.CallName = "mknod"
    · exact hcases 1 (Or.inl ⟨h4, rfl⟩)
    unfold targetedPositions at hi
    rw [if_neg h1, if_neg h2, if_neg h3, if_neg h4] at hi
    exact absurd hi (List.not_mem_nil i)
  refine ⟨?_, hchflags, hmknod⟩
  intro r hr
  obtain ⟨p, hp⟩ := hpanics
  rw [hp] at hr
  cases hr

theorem SanitizeCall_nonconst_panics_witness :
    2 ∈ targetedPositions (⟨⟨"mknod"⟩, [Arg.other 0, Arg.const 0xF1A4, Arg.other 8]⟩ : Call).Meta.CallName
    ∧ (⟨⟨"mknod"⟩, [Arg.other 0, Arg.const 0xF1A4, Arg.other 8]⟩ : Call).Args[2]? = some (Arg.other 8)
    ∧ SanitizeCall (⟨unixId, 0xF000, 0x2000⟩ : arch) (⟨⟨"mknod"⟩, [Arg.other 0, Arg.const 0xF1A4, Arg.other 8]⟩ : Call)
      = Outcome.panicked ⟨⟨"mknod"⟩, [Arg.other 0, Arg.const 0x21A4, Arg.other 8]⟩
    ∧ SanitizeCall (⟨unixId, 0xF000, 0x2000⟩ : arch) (⟨⟨"mknod"⟩, [Arg.other 0, Arg.const 0xF1A4, Arg.other 8]⟩ : Call) ≠ Outcome.panicked (⟨⟨"mknod"⟩, [Arg.other 0, Arg.const 0xF1A4, Arg.other 8]⟩ : Call)
    ∧ ((∀ r, SanitizeCall (⟨unixId, 0xF000, 0x2000⟩ : arch) (⟨⟨"mknod"⟩, [Arg.other 0, Arg.const 0xF1A4, Arg.other 8]⟩ : Call) ≠ Outcome.returned r)
      ∧ ((⟨⟨"mknod"⟩, [Arg.other 0, Arg.const 0xF1A4, Arg.other 8]⟩ : Call).Meta.CallName = "chflags" ∨ (⟨⟨"mknod"⟩, [Arg.other 0, Arg.const 0xF1A4, Arg.other 8]⟩ : Call).Meta.CallName = "fchflags"
          ∨ (⟨⟨"mknod"⟩, [Arg.other 0, Arg.const 0xF1A4, Arg.other 8]⟩ : Call).Meta.CallName = "chflagsat" →
          SanitizeCall (⟨unixId, 0xF000, 0x2000⟩ : arch) (⟨⟨"mknod"⟩, [Arg.other 0, Arg.const 0xF1A4, Arg.other 8]⟩ : Call) = Outcome.panicked (⟨⟨"mknod"⟩, [Arg.other 0, Arg.const 0xF1A4, Arg.other 8]⟩ : Call))
      ∧ (∀ argStart,
          ((⟨⟨"mknod"⟩, [Arg.other 0, Arg.const 0xF1A4, Arg.other 8]⟩ : Call).Meta.CallName = "mknod" ∧ argStart = 1
            ∨ (⟨⟨"mknod"⟩, [Arg.other 0, Arg.const 0xF1A4, Arg.other 8]⟩ : Call).Meta.CallName = "mknodat" ∧ argStart = 2) →
          ((∀ v, (⟨⟨"mknod"⟩, [Arg.other 0, Arg.const 0xF1A4, Arg.other 8]⟩ : Call).Args[argStart]? ≠ some (Arg.const v)) →
            SanitizeCall (⟨unixId, 0xF000, 0x2000⟩ : arch) (⟨⟨"mknod"⟩, [Arg.other 0, Arg.const 0xF1A4, Arg.other 8]⟩ : Call) = Outcome.panicked (⟨⟨"mknod"⟩, [Arg.other 0, Arg.const 0xF1A4, Arg.other 8]⟩ : Call))
          ∧ (∀ m, (⟨⟨"mknod"⟩, [Arg.other 0, Arg.const 0xF1A4, Arg.other 8]⟩ : Call).Args[argStart]? = some (Arg.const m) →
              2 = argStart + 1
              ∧ SanitizeCall (⟨unixId, 0xF000, 0x2000⟩ : arch) (⟨⟨"mknod"⟩, [Arg.other 0, Arg.const 0xF1A4, Arg.other 8]⟩ : Call)
                = Outcome.panicked
                    { (⟨⟨"mknod"⟩, [Arg.other 0, Arg.const 0xF1A4, Arg.other 8]⟩ : Call) with
                      Args := (⟨⟨"mknod"⟩, [Arg.other 0, Arg.const 0xF1A4, Arg.other 8]⟩ : Call).Args.set argStart (Arg.const (fixMode (⟨unixId, 0xF000, 0x2000⟩ : arch) m)) }))) :=
  ⟨by decide, rfl, by decide, by decide,
    SanitizeCall_nonconst_panics (⟨unixId, 0xF000, 0x2000⟩ : arch) (⟨⟨"mknod"⟩, [Arg.other 0, Arg.const 0xF1A4, Arg.other 8]⟩ : Call) 2 (Arg.other 8)
      (by decide) rfl (fun v h => Arg.noConfusion h)⟩

/-! ## Shape of the sanitized call -/

theorem targetedPositions_chflagsat : targetedPositions "chflagsat" = [2] := by decide

theorem targetedPositions_chflags : targetedPositions "chflags" = [1] := by decide

theorem targetedPositions_fchflags : targetedPositions "fchflags" = [1] := by decide

theorem targetedPositions_mknodat : targetedPositions "mknodat" = [2, 3] := by decide

theorem targetedPositions_mknod : targetedPositions "mknod" = [1, 2] := by decide

theorem set_const_shape (l : List Arg) (i v w : Nat) (h : l[i]? = some (Arg.const v)) :
    (l.set i (Arg.const w)).length = l.length
    ∧ (∀ j : Nat, ((l.set i (Arg.const w))[j]?).map Arg.isConst = (l[j]?).map Arg.isConst)
    ∧ (∀ j : Nat, j ≠ i → (l.set i (Arg.const w))[j]? = l[j]?)
    ∧ (l.set i (Arg.const w))[i]? = some (Arg.const w) := by
  refine ⟨List.length_set l i _, ?_, ?_, getElem?_set_of_some h⟩
  · intro j
    by_cases hj : j = i
    · subst hj
      rw [getElem?_set_of_some h, h]
      rfl
    · rw [List.getElem?_set_ne (Ne.symm hj)]
  · intro j hj
    rw [List.getElem?_set_ne (Ne.symm hj)]

theorem sanitizeChflags_shape (i : Nat) (c r : Call)
    (h : sanitizeChflags i c = Outcome.returned r) :
    r.Meta = c.Meta
    ∧ r.Args.length = c.Args.length
    ∧ (∀ j : Nat, (r.Args[j]?).map Arg.isConst = (c.Args[j]?).map Arg.isConst)
    ∧ (∀ j : Nat, j ∉ [i] → r.Args[j]? = c.Args[j]?)
    ∧ (∀ j : Nat, j ∈ [i] →
        ∃ v w, c.Args[j]? = some (Arg.const v) ∧ r.Args[j]? = some (Arg.const w)) := by
  obtain ⟨v, hv, rfl⟩ := sanitizeChflags_returned i c r h
  obtain ⟨h1, h2, h3, h4⟩ := set_const_shape c.Args i v (clearBadflags v) hv
  refine ⟨rfl, h1, h2, ?_, ?_⟩
  · intro j hj
    exact h3 j (fun e => hj (by rw [e]; exact List.mem_singleton.mpr rfl))
  · intro j hj
    rw [List.mem_singleton] at hj
    subst hj
    exact ⟨v, clearBadflags v, hv, h4⟩

theorem sanitizeMknod_shape (a : arch) (i : Nat) (c r : Call)
    (h : sanitizeMknod a i c = Outcome.returned r) :
    r.Meta = c.Meta
    ∧ r.Args.length = c.Args.length
    ∧ (∀ j : Nat, (r.Args[j]?).map Arg.isConst = (c.Args[j]?).map Arg.isConst)
    ∧ (∀ j : Nat, j ∉ [i, i + 1] → r.Args[j]? = c.Args[j]?)
    ∧ (∀ j : Nat, j ∈ [i, i + 1] →
        ∃ v w, c.Args[j]? = some (Arg.const v) ∧ r.Args[j]? = some (Arg.const w)) := by
  obtain ⟨m, d, hm, hd, rfl⟩ := sanitizeMknod_returned a i c r h
  have hne : i ≠ i + 1 := by omega
  obtain ⟨h1, h2, h3, h4⟩ := set_const_shape c.Args i m (fixMode a m) hm
  have hd1 : (c.Args.set i (Arg.const (fixMode a m)))[i + 1]? = some (Arg.const d) := by
    rw [List.getElem?_set_ne hne, hd]
  obtain ⟨k1, k2, k3, k4⟩ :=
    set_const_shape (c.Args.set i (Arg.const (fixMode a m))) (i + 1) d (fixDev d) hd1
  refine ⟨rfl, k1.trans h1, fun j => (k2 j).trans (h2 j), ?_, ?_⟩
  · intro j hj
    have hj1 : j ≠ i := fun e => hj (by rw [e]; exact List.mem_cons_self _ _)
    have hj2 : j ≠ i + 1 := fun e => hj (by rw [e]; simp)
    exact (k3 j hj2).trans (h3 j hj1)
  · intro j hj
    have hj' : j = i ∨ j = i + 1 := by simpa using hj
    rcases hj' with rfl | rfl
    · exact ⟨m, fixMode a m, hm, (k3 j hne).trans h4⟩
    · exact ⟨d, fixDev d, hd, k4⟩

/-- C11: shape invariant.  When `SanitizeCall` returns on a call named
`chflags`, `fchflags`, `chflagsat`, `mknod` or `mknodat`, the name is unchanged,
the number of arguments is unchanged, every position holds an argument of the
same variant as before, every argument at a position the rule does not target
is identical to the original (so the order is unchanged), and the targeted
positions (`[1]` for `chflags` and `fchflags`, `[2]` for `chflagsat`, `[1, 2]`
for `mknod`, `[2, 3]` for `mknodat`) hold constants before and after. -/
theorem SanitizeCall_shape (a : arch) (c r : Call)
    (hname : c.Meta.CallName = "chflags" ∨ c.Meta.CallName = "fchflags"
      ∨ c.Meta.CallName = "chflagsat" ∨ c.Meta.CallName = "mknod"
      ∨ c.Meta.CallName = "mknodat")
    (hrun : SanitizeCall a c = Outcome.returned r) :
    r.Meta = c.Meta
    ∧ r.Args.length = c.Args.length
    ∧ (∀ j : Nat, (r.Args[j]?).map Arg.isConst = (c.Args[j]?).map Arg.isConst)
    ∧ (∀ j : Nat, j ∉ targetedPositions c.Meta.CallName → r.Args[j]? = c.Args[j]?)
    ∧ (∀ j : Nat, j ∈ targetedPositions c.Meta.CallName →
        ∃ v w, c.Args[j]? = some (Arg.const v) ∧ r.Args[j]? = some (Arg.const w))
    ∧ targetedPositions "chflags" = [1] ∧ targetedPositions "fchflags" = [1]
    ∧ targetedPositions "chflagsat" = [2] ∧ targetedPositions "mknod" = [1, 2]
    ∧ targetedPositions "mknodat" = [2, 3] := by
  have hconst : targetedPositions "chflags" = [1] ∧ targetedPositions "fchflags" = [1]
      ∧ targetedPositions "chflagsat" = [2] ∧ targetedPositions "mknod" = [1, 2]
      ∧ targetedPositions "mknodat" = [2, 3] :=
    ⟨targetedPositions_chflags, targetedPositions_fchflags, targetedPositions_chflagsat,
      targetedPositions_mknod, targetedPositions_mknodat⟩
  rcases hname with h | h | h | h | h
  · rw [SanitizeCall_chflags a c (Or.inl h)] at hrun
    obtain ⟨s1, s2, s3, s4, s5⟩ := sanitizeChflags_shape 1 c r hrun
    rw [h, targetedPositions_chflags]
    exact ⟨s1, s2, s3, s4, s5, hconst⟩
  · rw [SanitizeCall_chflags a c (Or.inr h)] at hrun
    obtain ⟨s1, s2, s3, s4, s5⟩ := sanitizeChflags_shape 1 c r hrun
    rw [h, targetedPositions_fchflags]
    exact ⟨s1, s2, s3, s4, s5, hconst⟩
  · rw [SanitizeCall_chflagsat a c h] at hrun
    obtain ⟨s1, s2, s3, s4, s5⟩ := sanitizeChflags_shape 2 c r hrun
    rw [h, targetedPositions_chflagsat]
    exact ⟨s1, s2, s3, s4, s5, hconst⟩
  · rw [SanitizeCall_mknod a c h] at hrun
    obtain ⟨s1, s2, s3, s4, s5⟩ := sanitizeMknod_shape a 1 c r hrun
    rw [h, targetedPositions_mknod]
    exact ⟨s1, s2, s3, s4, s5, hconst⟩
  · rw [SanitizeCall_mknodat a c h] at hrun
    obtain ⟨s1, s2, s3, s4, s5⟩ := sanitizeMknod_shape a 2 c r hrun
    rw [h, targetedPositions_mknodat]
    exact ⟨s1, s2, s3, s4, s5, hconst⟩

theorem SanitizeCall_shape_witness :
    ((⟨⟨"mknodat"⟩, [Arg.other 1, Arg.other 2, Arg.const 0xF1A4, Arg.const 0x16F0, Arg.other 3]⟩ : Call).Meta.CallName = "chflags" ∨ (⟨⟨"mknodat"⟩, [Arg.other 1, Arg.other 2, Arg.const 0xF1A4, Arg.const 0x16F0, Arg.other 3]⟩ : Call).Meta.CallName = "fchflags"
      ∨ (⟨⟨"mknodat"⟩, [Arg.other 1, Arg.other 2, Arg.const 0xF1A4, Arg.const 0x16F0, Arg.other 3]⟩ : Call).Meta.CallName = "chflagsat" ∨ (⟨⟨"mknodat"⟩, [Arg.other 1, Arg.other 2, Arg.const 0xF1A4, Arg.const 0x16F0, Arg.other 3]⟩ : Call).Meta.CallName = "mknod"
      ∨ (⟨⟨"mknodat"⟩, [Arg.other 1, Arg.other 2, Arg.const 0xF1A4, Arg.const 0x16F0, Arg.other 3]⟩ : Call).Meta.CallName = "mknodat")
    ∧ SanitizeCall ⟨unixId, 0xF000, 0x2000⟩ (⟨⟨"mknodat"⟩, [Arg.other 1, Arg.other 2, Arg.const 0xF1A4, Arg.const 0x16F0, Arg.other 3]⟩ : Call) = Outcome.returned (⟨⟨"mknodat"⟩, [Arg.other 1, Arg.other 2, Arg.const 0x21A4, Arg.const 0x0202, Arg.other 3]⟩ : Call)
    ∧ ((⟨⟨"mknodat"⟩, [Arg.other 1, Arg.other 2, Arg.const 0x21A4, Arg.const 0x0202, Arg.other 3]⟩ : Call).Meta = (⟨⟨"mknodat"⟩, [Arg.other 1, Arg.other 2, Arg.const 0xF1A4, Arg.const 0x16F0, Arg.other 3]⟩ : Call).Meta
      ∧ (⟨⟨"mknodat"⟩, [Arg.other 1, Arg.other 2, Arg.const 0x21A4, Arg.const 0x0202, Arg.other 3]⟩ : Call).Args.length = (⟨⟨"mknodat"⟩, [Arg.other 1, Arg.other 2, Arg.const 0xF1A4, Arg.const 0x16F0, Arg.other 3]⟩ : Call).Args.length
      ∧ (∀ j : Nat, ((⟨⟨"mknodat"⟩, [Arg.other 1, Arg.other 2, Arg.const 0x21A4, Arg.const 0x0202, Arg.other 3]⟩ : Call).Args[j]?).map Arg.isConst = ((⟨⟨"mknodat"⟩, [Arg.other 1, Arg.other 2, Arg.const 0xF1A4, Arg.const 0x16F0, Arg.other 3]⟩ : Call).Args[j]?).map Arg.isConst)
      ∧ (∀ j : Nat, j ∉ targetedPositions (⟨⟨"mknodat"⟩, [Arg.other 1, Arg.other 2, Arg.const 0xF1A4, Arg.const 0x16F0, Arg.other 3]⟩ : Call).Meta.CallName → (⟨⟨"mknodat"⟩, [Arg.other 1, Arg.other 2, Arg.const 0x21A4, Arg.const 0x0202, Arg.other 3]⟩ : Call).Args[j]? = (⟨⟨"mknodat"⟩, [Arg.other 1, Arg.other 2, Arg.const 0xF1A4, Arg.const 0x16F0, Arg.other 3]⟩ : Call).Args[j]?)
      ∧ (∀ j : Nat, j ∈ targetedPositions (⟨⟨"mknodat"⟩, [Arg.other 1, Arg.other 2, Arg.const 0xF1A4, Arg.const 0x16F0, Arg.other 3]⟩ : Call).Meta.CallName →
          ∃ v w, (⟨⟨"mknodat"⟩, [Arg.other 1, Arg.other 2, Arg.const 0xF1A4, Arg.const 0x16F0, Arg.other 3]⟩ : Call).Args[j]? = some (Arg.const v) ∧ (⟨⟨"mknodat"⟩, [Arg.other 1, Arg.other 2, Arg.const 0x21A4, Arg.const 0x0202, Arg.other 3]⟩ : Call).Args[j]? = some (Arg.const w))
      ∧ targetedPositions "chflags" = [1] ∧ targetedPositions "fchflags" = [1]
      ∧ targetedPositions "chflagsat" = [2] ∧ targetedPositions "mknod" = [1, 2]
      ∧ targetedPositions "mknodat" = [2, 3]) :=
  ⟨Or.inr (Or.inr (Or.inr (Or.inr rfl))), by decide,
    SanitizeCall_shape ⟨unixId, 0xF000, 0x2000⟩ (⟨⟨"mknodat"⟩, [Arg.other 1, Arg.other 2, Arg.const 0xF1A4, Arg.const 0x16F0, Arg.other 3]⟩ : Call) (⟨⟨"mknodat"⟩, [Arg.other 1, Arg.other 2, Arg.const 0x21A4, Arg.const 0x0202, Arg.other 3]⟩ : Call)
      (Or.inr (Or.inr (Or.inr (Or.inr rfl)))) (by decide)⟩

/-! ## Target initialization -/

/-- C12: when both constants resolve, `InitTarget` completes and the target's
`SanitizeCall` hook is the `SanitizeCall` method of an `arch` whose `S_IFMT`
is `target.GetConst "S_IFMT"`, whose `S_IFCHR` is `target.GetConst "S_IFCHR"`
and whose generic sanitizer is the one made for the target, so the hook
behaves on every call as `arch.SanitizeCall` with those two values.  Only
these two names are resolved: the constant table itself is left as it was, the
mmap hook is the posix one, and a target that agrees on the two names (and
gets the same generic sanitizer) receives the same hook whatever else its
table holds. -/
theorem InitTarget_installs_hook {M : Type} (MakeUnixSanitizer : Target M → Call → Outcome)
    (MakePosixMmap : Target M → M) (target : Target M) (ifmt ifchr : Nat)
    (hfmt : target.GetConst "S_IFMT" = some ifmt)
    (hchr : target.GetConst "S_IFCHR" = some ifchr) :
    ∃ (t : Target M) (a : arch),
      InitTarget MakeUnixSanitizer MakePosixMmap target = some t
      ∧ a.S_IFMT = ifmt ∧ a.S_IFCHR = ifchr ∧ a.unix = MakeUnixSanitizer target
      ∧ t.SanitizeCall = SanitizeCall a
      ∧ (∀ c, t.SanitizeCall c = SanitizeCall ⟨MakeUnixSanitizer target, ifmt, ifchr⟩ c)
      ∧ t.GetConst = target.GetConst
      ∧ t.MakeMmap = MakePosixMmap target
      ∧ (∀ other : Target M,
          other.GetConst "S_IFMT" = target.GetConst "S_IFMT" →
          other.GetConst "S_IFCHR" = target.GetConst "S_IFCHR" →
          MakeUnixSanitizer other = MakeUnixSanitizer target →
          ∃ t2, InitTarget MakeUnixSanitizer MakePosixMmap other = some t2
            ∧ t2.SanitizeCall = t.SanitizeCall) := by
  refine ⟨{ target with
      MakeMmap := MakePosixMmap target
      SanitizeCall := SanitizeCall ⟨MakeUnixSanitizer target, ifmt, ifchr⟩ },
    ⟨MakeUnixSanitizer target, ifmt, ifchr⟩, ?_, rfl, rfl, rfl, rfl, fun _ => rfl, rfl, rfl, ?_⟩
  · simp only [InitTarget, hfmt, hchr]
  · intro other h1 h2 h3
    rw [hfmt] at h1
    rw [hchr] at h2
    refine ⟨{ other with
        MakeMmap := MakePosixMmap other
        SanitizeCall := SanitizeCall ⟨MakeUnixSanitizer other, ifmt, ifchr⟩ }, ?_, ?_⟩
    · simp only [InitTarget, h1, h2]
    · show SanitizeCall ⟨MakeUnixSanitizer other, ifmt, ifchr⟩ = _
      rw [h3]

theorem InitTarget_installs_hook_witness :
    (⟨openbsdConsts, 0, unixId⟩ : Target Nat).GetConst "S_IFMT" = some 0xF000
    ∧ (⟨openbsdConsts, 0, unixId⟩ : Target Nat).GetConst "S_IFCHR" = some 0x2000
    ∧ ∃ (t : Target Nat) (a : arch),
      InitTarget (fun _ => unixId) (fun _ => 1) ⟨openbsdConsts, 0, unixId⟩ = some t
      ∧ a.S_IFMT = 0xF000 ∧ a.S_IFCHR = 0x2000
      ∧ a.unix = (fun _ => unixId) (⟨openbsdConsts, 0, unixId⟩ : Target Nat)
      ∧ t.SanitizeCall = SanitizeCall a
      ∧ (∀ c, t.SanitizeCall c
          = SanitizeCall
              ⟨(fun _ => unixId) (⟨openbsdConsts, 0, unixId⟩ : Target Nat), 0xF000, 0x2000⟩ c)
      ∧ t.GetConst = (⟨openbsdConsts, 0, unixId⟩ : Target Nat).GetConst
      ∧ t.MakeMmap = (fun _ => 1) (⟨openbsdConsts, 0, unixId⟩ : Target Nat)
      ∧ (∀ other : Target Nat,
          other.GetConst "S_IFMT" = (⟨openbsdConsts, 0, unixId⟩ : Target Nat).GetConst "S_IFMT" →
          other.GetConst "S_IFCHR"
            = (⟨openbsdConsts, 0, unixId⟩ : Target Nat).GetConst "S_IFCHR" →
          (fun _ => unixId) other
            = (fun _ => unixId) (⟨openbsdConsts, 0, unixId⟩ : Target Nat) →
          ∃ t2, InitTarget (fun _ => unixId) (fun _ => 1) other = some t2
            ∧ t2.SanitizeCall = t.SanitizeCall) :=
  ⟨by decide, by decide,
    InitTarget_installs_hook (fun _ => unixId) (fun _ => 1) ⟨openbsdConsts, 0, unixId⟩
      0xF000 0x2000 (by decide) (by decide)⟩

/-! ## The device rule: exclusivity, safety, low 32 bits -/

theorem isKcovFd_eq_true (d : Nat) :
    isKcovFd d = true ↔ devmajor d = 22 ∧ 232 ≤ devminor d ∧ devminor d < 248 := by
  simp [isKcovFd, devFdMajor, kcovFdMinorMin, kcovFdMinorMax, and_assoc]

theorem and_ffffffff (d : Nat) : d &&& 0xFFFFFFFF = d % 2 ^ 32 := by
  have h : (0xFFFFFFFF : Nat) = 2 ^ 32 - 1 := by norm_num
  rw [h, Nat.and_pow_two_sub_one_eq_mod]

theorem isKcovFd_low32 (d : Nat) :
    isKcovFd d = true ↔ 0x16E8 ≤ d &&& 0xFFFFFFFF ∧ d &&& 0xFFFFFFFF < 0x16F8 := by
  rw [isKcovFd_eq_true, devmajor_eq_div_mod, devminor_eq_div_mod, and_ffffffff]
  norm_num
  omega

theorem sd0c_low32 (d : Nat) :
    (devmajor d = 4 ∧ devminor d = 2) ↔ d &&& 0xFFFFFFFF = 0x0402 := by
  rw [devmajor_eq_div_mod, devminor_eq_div_mod, and_ffffffff]
  norm_num
  omega

theorem devnum_eq_iff_low32 (d1 d2 : Nat) :
    (devmajor d1 = devmajor d2 ∧ devminor d1 = devminor d2)
      ↔ d1 &&& 0xFFFFFFFF = d2 &&& 0xFFFFFFFF := by
  rw [devmajor_eq_div_mod, devminor_eq_div_mod, devmajor_eq_div_mod, devminor_eq_div_mod,
    and_ffffffff, and_ffffffff]
  norm_num
  omega

theorem not_kcov_and_sd0c (d : Nat) :
    ¬ (isKcovFd d = true ∧ devmajor d = 4 ∧ devminor d = 2) := by
  rintro ⟨h1, h2, _⟩
  rw [isKcovFd_eq_true] at h1
  omega

theorem fixDev_safe (d : Nat) :
    isKcovFd (fixDev d) = false ∧ ¬ (devmajor (fixDev d) = 4 ∧ devminor (fixDev d) = 2) := by
  rw [fixDev_eq]
  by_cases h : isKcovFd d = true ∨ (devmajor d = 4 ∧ devminor d = 2)
  · rw [if_pos h]
    decide
  · rw [if_neg h]
    constructor
    · cases hk : isKcovFd d
      · rfl
      · exact absurd (Or.inl hk) h
    · exact fun hs => h (Or.inr hs)

theorem fixMode_and_mask (a : arch) (m : Nat) (h : m &&& a.S_IFMT = a.S_IFMT) :
    fixMode a m &&& a.S_IFMT = a.S_IFCHR &&& a.S_IFMT := by
  unfold fixMode
  rw [if_pos h]
  apply Nat.eq_of_testBit_eq
  intro i
  simp only [Nat.testBit_and, Nat.testBit_or, testBit_not64]
  cases m.testBit i <;> cases a.S_IFMT.testBit i <;> cases a.S_IFCHR.testBit i <;> simp

theorem fixMode_safe (a : arch) (m : Nat) (hC : a.S_IFCHR &&& a.S_IFMT ≠ a.S_IFMT) :
    fixMode a m &&& a.S_IFMT ≠ a.S_IFMT := by
  by_cases h : m &&& a.S_IFMT = a.S_IFMT
  · rw [fixMode_and_mask a m h]
    exact hC
  · unfold fixMode
    rw [if_neg h]
    exact h

theorem fixDev_eq_self_iff (d : Nat) :
    fixDev d = d ↔ ¬ (isKcovFd d = true ∨ (devmajor d = 4 ∧ devminor d = 2)) := by
  rw [fixDev_eq]
  by_cases h : isKcovFd d = true ∨ (devmajor d = 4 ∧ devminor d = 2)
  · rw [if_pos h]
    constructor
    · intro hd
      rw [← hd] at h
      exact absurd h (by decide)
    · intro hn
      exact absurd h hn
  · rw [if_neg h]
    exact ⟨fun _ => h, fun _ => rfl⟩

/-- C13: the two device checks are mutually exclusive: no value `d` satisfies
both `isKcovFd d` and `devmajor d = 4 ∧ devminor d = 2`.  The sentinel `0x0202`
written by the first check does not satisfy the second, so running the second
check on the value the first check left (what `SanitizeCall` does) gives the
same final device value as running both checks on the original value. -/
theorem device_checks_exclusive :
    (∀ d, ¬ (isKcovFd d = true ∧ devmajor d = 4 ∧ devminor d = 2))
    ∧ devNullDevT = 0x0202
    ∧ ¬ (devmajor devNullDevT = 4 ∧ devminor devNullDevT = 2)
    ∧ (∀ d, fixDev d
        = if devmajor d = 4 ∧ devminor d = 2 then devNullDevT
          else if isKcovFd d = true then devNullDevT else d)
    ∧ (∀ d, fixDev d
        = if isKcovFd d = true ∨ (devmajor d = 4 ∧ devminor d = 2) then devNullDevT else d) := by
  refine ⟨not_kcov_and_sd0c, rfl, by decide, ?_, fixDev_eq⟩
  intro d
  rw [fixDev_eq]
  by_cases h1 : devmajor d = 4 ∧ devminor d = 2
  · rw [if_pos (Or.inr h1), if_pos h1]
  · by_cases h2 : isKcovFd d = true
    · rw [if_pos (Or.inl h2), if_neg h1, if_pos h2]
    · rw [if_neg (fun h => h.elim h2 h1), if_neg h1, if_neg h2]

/-- C14: post-state safety of the device rule.  When `SanitizeCall` returns on
a `mknod` (`argStart = 1`) or `mknodat` (`argStart = 2`) call, the device
argument of the result is a constant `d'` that is not a forbidden device:
`isKcovFd d'` is false and it is not the case that `devmajor d' = 4` and
`devminor d' = 2`.  The sentinel `0x0202` decodes to major 2, minor 2. -/
theorem SanitizeCall_mknod_dev_safe (a : arch) (c r : Call) (argStart : Nat)
    (hname : c.Meta.CallName = "mknod" ∧ argStart = 1
      ∨ c.Meta.CallName = "mknodat" ∧ argStart = 2)
    (hrun : SanitizeCall a c = Outcome.returned r) :
    ∃ d', r.Args[argStart + 1]? = some (Arg.const d')
      ∧ isKcovFd d' = false
      ∧ ¬ (devmajor d' = 4 ∧ devminor d' = 2)
      ∧ devmajor 0x0202 = 2 ∧ devminor 0x0202 = 2 := by
  have hrun2 : sanitizeMknod a argStart c = Outcome.returned r := by
    rcases hname with ⟨hn, rfl⟩ | ⟨hn, rfl⟩
    · rw [← SanitizeCall_mknod a c hn]
      exact hrun
    · rw [← SanitizeCall_mknodat a c hn]
      exact hrun
  obtain ⟨m, d, hm, hd, rfl⟩ := sanitizeMknod_returned a argStart c r hrun2
  have hne : argStart ≠ argStart + 1 := by omega
  have hd1 : (c.Args.set argStart (Arg.const (fixMode a m)))[argStart + 1]?
      = some (Arg.const d) := by
    rw [List.getElem?_set_ne hne, hd]
  exact ⟨fixDev d, getElem?_set_of_some hd1, (fixDev_safe d).1, (fixDev_safe d).2,
    by decide, by decide⟩

/-- C15: post-state safety of the mode rule.  When `SanitizeCall` returns on a
`mknod` (`argStart = 1`) or `mknodat` (`argStart = 2`) call, and the constants
satisfy `S_IFCHR AND S_IFMT ≠ S_IFMT`, the mode argument of the result is a
constant `m'` that does not have the reserved file type:
`m' AND S_IFMT ≠ S_IFMT`. -/
theorem SanitizeCall_mknod_mode_safe (a : arch) (c r : Call) (argStart : Nat)
    (hname : c.Meta.CallName = "mknod" ∧ argStart = 1
      ∨ c.Meta.CallName = "mknodat" ∧ argStart = 2)
    (hrun : SanitizeCall a c = Outcome.returned r)
    (hC : a.S_IFCHR &&& a.S_IFMT ≠ a.S_IFMT) :
    ∃ m', r.Args[argStart]? = some (Arg.const m') ∧ m' &&& a.S_IFMT ≠ a.S_IFMT := by
  have hrun2 : sanitizeMknod a argStart c = Outcome.returned r := by
    rcases hname with ⟨hn, rfl⟩ | ⟨hn, rfl⟩
    · rw [← SanitizeCall_mknod a c hn]
      exact hrun
    · rw [← SanitizeCall_mknodat a c hn]
      exact hrun
  obtain ⟨m, d, hm, hd, rfl⟩ := sanitizeMknod_returned a argStart c r hrun2
  have hne : argStart + 1 ≠ argStart := by omega
  refine ⟨fixMode a m, ?_, fixMode_safe a m hC⟩
  show ((c.Args.set argStart _).set (argStart + 1) _)[argStart]? = _
  rw [List.getElem?_set_ne hne, getElem?_set_of_some hm]

/-- C16: device classification depends only on the low 32 bits.  For every
`d`, `isKcovFd d` holds exactly when `d AND 0xFFFFFFFF` lies in
`[0x16E8, 0x16F8)`, and `devmajor d = 4 ∧ devminor d = 2` holds exactly when
`d AND 0xFFFFFFFF = 0x0402`; two values with the same low 32 bits get the same
answer from both checks and are either both rewritten or both left as they
are, so bits 32 to 63 never influence whether the device argument is
rewritten. -/
theorem device_checks_low32 (d : Nat) :
    (isKcovFd d = true ↔ 0x16E8 ≤ d &&& 0xFFFFFFFF ∧ d &&& 0xFFFFFFFF < 0x16F8)
    ∧ ((devmajor d = 4 ∧ devminor d = 2) ↔ d &&& 0xFFFFFFFF = 0x0402)
    ∧ (∀ e, e &&& 0xFFFFFFFF = d &&& 0xFFFFFFFF →
        isKcovFd e = isKcovFd d
        ∧ ((devmajor e = 4 ∧ devminor e = 2) ↔ (devmajor d = 4 ∧ devminor d = 2))
        ∧ (fixDev e = e ↔ fixDev d = d)) := by
  refine ⟨isKcovFd_low32 d, sd0c_low32 d, ?_⟩
  intro e he
  have hk : (isKcovFd e = true) ↔ (isKcovFd d = true) := by
    rw [isKcovFd_low32, isKcovFd_low32, he]
  have hs : (devmajor e = 4 ∧ devminor e = 2) ↔ (devmajor d = 4 ∧ devminor d = 2) := by
    rw [sd0c_low32, sd0c_low32, he]
  refine ⟨Bool.eq_iff_iff.mpr hk, hs, ?_⟩
  rw [fixDev_eq_self_iff, fixDev_eq_self_iff, hk, hs]

/-- C18: the device-number decoding is bounded and loses nothing from the low
32 bits: `devmajor d < 256` and `devminor d < 2 ^ 24` for every `d`, and two
values have the same major and the same minor exactly when their low 32 bits
agree. -/
theorem devnum_bounded_injective :
    (∀ d, devmajor d < 256 ∧ devminor d < 2 ^ 24)
    ∧ (∀ d1 d2, (devmajor d1 = devmajor d2 ∧ devminor d1 = devminor d2)
        ↔ d1 &&& 0xFFFFFFFF = d2 &&& 0xFFFFFFFF) :=
  ⟨fun d => ⟨devmajor_lt d, devminor_lt d⟩, devnum_eq_iff_low32⟩

theorem SanitizeCall_mknod_dev_safe_witness :
    ((⟨⟨"mknod"⟩, [Arg.other 0, Arg.const 0xF1A4, Arg.const 0x0402]⟩ : Call).Meta.CallName = "mknod" ∧ 1 = 1 ∨ (⟨⟨"mknod"⟩, [Arg.other 0, Arg.const 0xF1A4, Arg.const 0x0402]⟩ : Call).Meta.CallName = "mknodat" ∧ 1 = 2)
    ∧ SanitizeCall (⟨unixId, 0xF000, 0x2000⟩ : arch) (⟨⟨"mknod"⟩, [Arg.other 0, Arg.const 0xF1A4, Arg.const 0x0402]⟩ : Call) = Outcome.returned (⟨⟨"mknod"⟩, [Arg.other 0, Arg.const 0x21A4, Arg.const 0x0202]⟩ : Call)
    ∧ ∃ d', (⟨⟨"mknod"⟩, [Arg.other 0, Arg.const 0x21A4, Arg.const 0x0202]⟩ : Call).Args[1 + 1]? = some (Arg.const d')
      ∧ isKcovFd d' = false
      ∧ ¬ (devmajor d' = 4 ∧ devminor d' = 2)
      ∧ devmajor 0x0202 = 2 ∧ devminor 0x0202 = 2 :=
  ⟨Or.inl ⟨rfl, rfl⟩, by decide,
    SanitizeCall_mknod_dev_safe (⟨unixId, 0xF000, 0x2000⟩ : arch) (⟨⟨"mknod"⟩, [Arg.other 0, Arg.const 0xF1A4, Arg.const 0x0402]⟩ : Call) (⟨⟨"mknod"⟩, [Arg.other 0, Arg.const 0x21A4, Arg.const 0x0202]⟩ : Call) 1 (Or.inl ⟨rfl, rfl⟩) (by decide)⟩

theorem SanitizeCall_mknod_mode_safe_witness :
    ((⟨⟨"mknod"⟩, [Arg.other 0, Arg.const 0xF1A4, Arg.const 0x0402]⟩ : Call).Meta.CallName = "mknod" ∧ 1 = 1 ∨ (⟨⟨"mknod"⟩, [Arg.other 0, Arg.const 0xF1A4, Arg.const 0x0402]⟩ : Call).Meta.CallName = "mknodat" ∧ 1 = 2)
    ∧ SanitizeCall (⟨unixId, 0xF000, 0x2000⟩ : arch) (⟨⟨"mknod"⟩, [Arg.other 0, Arg.const 0xF1A4, Arg.const 0x0402]⟩ : Call) = Outcome.returned (⟨⟨"mknod"⟩, [Arg.other 0, Arg.const 0x21A4, Arg.const 0x0202]⟩ : Call)
    ∧ (⟨unixId, 0xF000, 0x2000⟩ : arch).S_IFCHR &&& (⟨unixId, 0xF000, 0x2000⟩ : arch).S_IFMT ≠ (⟨unixId, 0xF000, 0x2000⟩ : arch).S_IFMT
    ∧ ∃ m', (⟨⟨"mknod"⟩, [Arg.other 0, Arg.const 0x21A4, Arg.const 0x0202]⟩ : Call).Args[1]? = some (Arg.const m') ∧ m' &&& (⟨unixId, 0xF000, 0x2000⟩ : arch).S_IFMT ≠ (⟨unixId, 0xF000, 0x2000⟩ : arch).S_IFMT :=
  ⟨Or.inl ⟨rfl, rfl⟩, by decide, by decide,
    SanitizeCall_mknod_mode_safe (⟨unixId, 0xF000, 0x2000⟩ : arch) (⟨⟨"mknod"⟩, [Arg.other 0, Arg.const 0xF1A4, Arg.const 0x0402]⟩ : Call) (⟨⟨"mknod"⟩, [Arg.other 0, Arg.const 0x21A4, Arg.const 0x0202]⟩ : Call) 1 (Or.inl ⟨rfl, rfl⟩) (by decide) (by decide)⟩

/-! ## When the sanitizer completes -/

theorem sanitizeChflags_returns_iff (i : Nat) (c : Call) :
    (∃ r, sanitizeChflags i c = Outcome.returned r) ↔ ∃ v, c.Args[i]? = some (Arg.const v) := by
  constructor
  · rintro ⟨r, h⟩
    obtain ⟨v, hv, _⟩ := sanitizeChflags_returned i c r h
    exact ⟨v, hv⟩
  · rintro ⟨v, hv⟩
    exact ⟨_, sanitizeChflags_const i v c hv⟩

theorem sanitizeMknod_returns_iff (a : arch) (i : Nat) (c : Call) :
    (∃ r, sanitizeMknod a i c = Outcome.returned r)
      ↔ (∃ v, c.Args[i]? = some (Arg.const v)) ∧ (∃ v, c.Args[i + 1]? = some (Arg.const v)) := by
  constructor
  · rintro ⟨r, h⟩
    obtain ⟨m, d, hm, hd, _⟩ := sanitizeMknod_returned a i c r h
    exact ⟨⟨m, hm⟩, ⟨d, hd⟩⟩
  · rintro ⟨⟨m, hm⟩, ⟨d, hd⟩⟩
    exact ⟨_, sanitizeMknod_const a i m d c hm hd⟩

theorem panicked_iff_not_returned (o : Outcome) :
    (∃ r, o = Outcome.panicked r) ↔ ¬ ∃ r, o = Outcome.returned r := by
  cases o with
  | returned c =>
    constructor
    · rintro ⟨r, h⟩
      cases h
    · intro h
      exact absurd ⟨c, rfl⟩ h
  | panicked c =>
    constructor
    · rintro _ ⟨r, h⟩
      cases h
    · intro _
      exact ⟨c, rfl⟩

theorem SanitizeCall_returns_iff (a : arch) (c : Call)
    (hname : c.Meta.CallName = "chflags" ∨ c.Meta.CallName = "fchflags"
      ∨ c.Meta.CallName = "chflagsat" ∨ c.Meta.CallName = "mknod"
      ∨ c.Meta.CallName = "mknodat") :
    (∃ r, SanitizeCall a c = Outcome.returned r)
      ↔ ∀ i ∈ targetedPositions c.Meta.CallName, ∃ v, c.Args[i]? = some (Arg.const v) := by
  rcases hname with h | h | h | h | h
  · rw [SanitizeCall_chflags a c (Or.inl h), h, targetedPositions_chflags,
      sanitizeChflags_returns_iff]
    simp
  · rw [SanitizeCall_chflags a c (Or.inr h), h, targetedPositions_fchflags,
      sanitizeChflags_returns_iff]
    simp
  · rw [SanitizeCall_chflagsat a c h, h, targetedPositions_chflagsat,
      sanitizeChflags_returns_iff]
    simp
  · rw [SanitizeCall_mknod a c h, h, targetedPositions_mknod, sanitizeMknod_returns_iff]
    simp
  · rw [SanitizeCall_mknodat a c h, h, targetedPositions_mknodat, sanitizeMknod_returns_iff]
    simp

/-- C17: on a recognized name `SanitizeCall` completes without panicking
exactly when every targeted position exists and holds a constant argument
(position 1 for `chflags` and `fchflags`, 2 for `chflagsat`, 1 and 2 for
`mknod`, 2 and 3 for `mknodat`), and panics exactly when one of them does not.
When the mode argument of a `mknod` or `mknodat` call is a constant and the
device argument is missing or not a constant, the panic happens with the mode
rewrite already applied to the call. -/
theorem SanitizeCall_completes_iff (a : arch) (c : Call)
    (hname : c.Meta.CallName = "chflags" ∨ c.Meta.CallName = "fchflags"
      ∨ c.Meta.CallName = "chflagsat" ∨ c.Meta.CallName = "mknod"
      ∨ c.Meta.CallName = "mknodat") :
    ((∃ r, SanitizeCall a c = Outcome.returned r)
      ↔ ∀ i ∈ targetedPositions c.Meta.CallName, ∃ v, c.Args[i]? = some (Arg.const v))
    ∧ ((∃ r, SanitizeCall a c = Outcome.panicked r)
      ↔ ¬ ∀ i ∈ targetedPositions c.Meta.CallName, ∃ v, c.Args[i]? = some (Arg.const v))
    ∧ (∀ argStart m,
        (c.Meta.CallName = "mknod" ∧ argStart = 1
          ∨ c.Meta.CallName = "mknodat" ∧ argStart = 2) →
        c.Args[argStart]? = some (Arg.const m) →
        (∀ v, c.Args[argStart + 1]? ≠ some (Arg.const v)) →
        SanitizeCall a c
          = Outcome.panicked
              { c with Args := c.Args.set argStart (Arg.const (fixMode a m)) })
    ∧ targetedPositions "chflags" = [1] ∧ targetedPositions "fchflags" = [1]
    ∧ targetedPositions "chflagsat" = [2] ∧ targetedPositions "mknod" = [1, 2]
    ∧ targetedPositions "mknodat" = [2, 3] := by
  refine ⟨SanitizeCall_returns_iff a c hname, ?_, ?_, targetedPositions_chflags,
    targetedPositions_fchflags, targetedPositions_chflagsat, targetedPositions_mknod,
    targetedPositions_mknodat⟩
  · rw [panicked_iff_not_returned, SanitizeCall_returns_iff a c hname]
  · intro argStart m hn hm hd
    rcases hn with ⟨hn, rfl⟩ | ⟨hn, rfl⟩
    · rw [SanitizeCall_mknod a c hn]
      exact sanitizeMknod_panics_dev a 1 m c hm hd
    · rw [SanitizeCall_mknodat a c hn]
      exact sanitizeMknod_panics_dev a 2 m c hm hd

theorem SanitizeCall_completes_iff_witness :
    ((⟨⟨"mknod"⟩, [Arg.other 0, Arg.const 0xF1A4]⟩ : Call).Meta.CallName = "chflags" ∨ (⟨⟨"mknod"⟩, [Arg.other 0, Arg.const 0xF1A4]⟩ : Call).Meta.CallName = "fchflags"
      ∨ (⟨⟨"mknod"⟩, [Arg.other 0, Arg.const 0xF1A4]⟩ : Call).Meta.CallName = "chflagsat" ∨ (⟨⟨"mknod"⟩, [Arg.other 0, Arg.const 0xF1A4]⟩ : Call).Meta.CallName = "mknod"
      ∨ (⟨⟨"mknod"⟩, [Arg.other 0, Arg.const 0xF1A4]⟩ : Call).Meta.CallName = "mknodat")
    ∧ SanitizeCall (⟨unixId, 0xF000, 0x2000⟩ : arch) (⟨⟨"mknod"⟩, [Arg.other 0, Arg.const 0xF1A4]⟩ : Call)
      = Outcome.panicked ⟨⟨"mknod"⟩, [Arg.other 0, Arg.const 0x21A4]⟩
    ∧ SanitizeCall (⟨unixId, 0xF000, 0x2000⟩ : arch) (⟨⟨"mknod"⟩, [Arg.other 0, Arg.const 0xF1A4, Arg.const 0x0402]⟩ : Call) = Outcome.returned (⟨⟨"mknod"⟩, [Arg.other 0, Arg.const 0x21A4, Arg.const 0x0202]⟩ : Call)
    ∧ (((∃ r, SanitizeCall (⟨unixId, 0xF000, 0x2000⟩ : arch) (⟨⟨"mknod"⟩, [Arg.other 0, Arg.const 0xF1A4]⟩ : Call) = Outcome.returned r)
        ↔ ∀ i ∈ targetedPositions (⟨⟨"mknod"⟩, [Arg.other 0, Arg.const 0xF1A4]⟩ : Call).Meta.CallName, ∃ v, (⟨⟨"mknod"⟩, [Arg.other 0, Arg.const 0xF1A4]⟩ : Call).Args[i]? = some (Arg.const v))
      ∧ ((∃ r, SanitizeCall (⟨unixId, 0xF000, 0x2000⟩ : arch) (⟨⟨"mknod"⟩, [Arg.other 0, Arg.const 0xF1A4]⟩ : Call) = Outcome.panicked r)
        ↔ ¬ ∀ i ∈ targetedPositions (⟨⟨"mknod"⟩, [Arg.other 0, Arg.const 0xF1A4]⟩ : Call).Meta.CallName, ∃ v, (⟨⟨"mknod"⟩, [Arg.other 0, Arg.const 0xF1A4]⟩ : Call).Args[i]? = some (Arg.const v))
      ∧ (∀ argStart m,
          ((⟨⟨"mknod"⟩, [Arg.other 0, Arg.const 0xF1A4]⟩ : Call).Meta.CallName = "mknod" ∧ argStart = 1
            ∨ (⟨⟨"mknod"⟩, [Arg.other 0, Arg.const 0xF1A4]⟩ : Call).Meta.CallName = "mknodat" ∧ argStart = 2) →
          (⟨⟨"mknod"⟩, [Arg.other 0, Arg.const 0xF1A4]⟩ : Call).Args[argStart]? = some (Arg.const m) →
          (∀ v, (⟨⟨"mknod"⟩, [Arg.other 0, Arg.const 0xF1A4]⟩ : Call).Args[argStart + 1]? ≠ some (Arg.const v)) →
          SanitizeCall (⟨unixId, 0xF000, 0x2000⟩ : arch) (⟨⟨"mknod"⟩, [Arg.other 0, Arg.const 0xF1A4]⟩ : Call)
            = Outcome.panicked
                { (⟨⟨"mknod"⟩, [Arg.other 0, Arg.const 0xF1A4]⟩ : Call) with Args := (⟨⟨"mknod"⟩, [Arg.other 0, Arg.const 0xF1A4]⟩ : Call).Args.set argStart (Arg.const (fixMode (⟨unixId, 0xF000, 0x2000⟩ : arch) m)) })
      ∧ targetedPositions "chflags" = [1] ∧ targetedPositions "fchflags" = [1]
      ∧ targetedPositions "chflagsat" = [2] ∧ targetedPositions "mknod" = [1, 2]
      ∧ targetedPositions "mknodat" = [2, 3]) :=
  ⟨Or.inr (Or.inr (Or.inr (Or.inl rfl))), by decide, by decide,
    SanitizeCall_completes_iff (⟨unixId, 0xF000, 0x2000⟩ : arch) (⟨⟨"mknod"⟩, [Arg.other 0, Arg.const 0xF1A4]⟩ : Call) (Or.inr (Or.inr (Or.inr (Or.inl rfl))))⟩

end OpenBSD
